import Mathlib

/-!
Hexagons watchface: embedding of `hexagon.c` and `hexagons.c`.

The C program is embedded shallowly.

* `int16_t` / `uint16_t` objects are integers; every store into such an object goes
  through `wrap16` / `toU16` (two's complement wrap-around, as on the ARM target).
* `float` is IEEE-754 binary32.  The float expressions of the program are
  `(float)s * HALF_SQRT_3` (tile geometry) and `168 - base_interval * HALF_SQRT_3 * k + e`
  (layout table), each followed by a conversion to `int16_t`; they are modelled exactly on
  integers scaled by `2^24` (round-to-nearest-even after every operation, truncation on the
  conversion).
* The file-scope variables of `hexagons.c` form the record `Driver`.  Calls into the
  hexagon module and into the Pebble animation API are recorded in `Driver.trace`
  (most recent call first), so that "how often was X called" can be stated.
* Host objects that the program never inspects (layer frames, fonts, alignments, the
  graphics context) are not part of the state.
-/

namespace Hexagons

/-! ## Machine integers -/

/-- Value stored by an assignment of the integer `n` to an `int16_t` object. -/
def wrap16 (n : Int) : Int := (n + 32768) % 65536 - 32768

/-- Value stored by an assignment of the integer `n` to a `uint16_t` object. -/
def toU16 (n : Int) : Nat := (n % 65536).toNat

/-! ## Pebble SDK values -/

/-- The colours the program uses.  `Clear` is the all-zero `GColor8`, i.e. what a
`memset(…, 0, …)` leaves in a colour field. -/
inductive GColor where
  | Clear | Black | White | Green | Orange | Cyan | ShockingPink | Yellow | Red
  deriving DecidableEq, Repr

/-- Pebble `GPoint`: two `int16_t` coordinates. -/
structure GPoint where
  x : Int
  y : Int
  deriving DecidableEq, Repr

/-- Pebble `TextLayer`, reduced to what the program reads or writes: the displayed text,
the text colour and the `hidden` flag of its layer.  `text_layer_create` yields a visible
layer (`hidden = false` is the SDK default for a new layer). -/
structure TextLayer where
  text : String
  text_color : GColor
  hidden : Bool
  deriving DecidableEq, Repr

/-! ## binary32 arithmetic used by `HEX_HEIGHT` -/

/-- Significand of `HALF_SQRT_3 = (float)0.86602540378`: the nearest binary32 value is
`14529495 / 2^24 = 0.8660253882408142…`. -/
def HALF_SQRT_3 : Nat := 14529495

/-- Number of low bits that must be dropped from `p` to leave at most 24 significant
bits (`fuel` bounds the search; 64 is enough for every `p < 2^88`). -/
def f32_excess : Nat → Nat → Nat
  | 0, _ => 0
  | fuel + 1, p => if p < 2 ^ 24 then 0 else f32_excess fuel (p / 2) + 1

/-- Round-to-nearest-even of the non-negative real `p / 2^24` to a binary32 value, again
scaled by `2^24`. -/
def f32_round (p : Nat) : Nat :=
  let sh := f32_excess 64 p
  let q := p / 2 ^ sh
  let r := p % 2 ^ sh
  if 2 * r > 2 ^ sh ∨ (2 * r = 2 ^ sh ∧ q % 2 = 1) then (q + 1) * 2 ^ sh else q * 2 ^ sh

/-- The macro `HEX_HEIGHT(s) = ((float)s * HALF_SQRT_3)`: the binary32 product, as an integer
scaled by `2^24`.  `(float)s` is exact for an `int16_t`; the product is rounded once. -/
def HEX_HEIGHT (s : Int) : Int :=
  if 0 ≤ s then (f32_round (s.natAbs * HALF_SQRT_3) : Int)
  else -(f32_round (s.natAbs * HALF_SQRT_3) : Int)

/-- Conversion of a scaled binary32 value to an integer type: truncation toward zero. -/
def f32_to_int (v : Int) : Int := Int.tdiv v (2 ^ 24)

/-! ## `hexagon.c` -/

/-- The C struct `_hexagon_layer_data`.  A `GPath` is represented by the points it draws;
`border_path = none` is the NULL pointer. -/
structure hexagon_layer_data where
  color : GColor
  path : List GPoint
  border_color : GColor
  border_path : Option (List GPoint)
  border_width : Int
  deriving DecidableEq, Repr

/-- The Pebble `Layer` owned by a tile: its data area and whether a redraw is pending. -/
structure Layer where
  data : hexagon_layer_data
  dirty : Bool
  deriving DecidableEq, Repr

/-- The C struct `t_hexagon`; NULL pointers are `none`. -/
structure t_hexagon where
  layer : Layer
  center : GPoint
  points : List GPoint
  border_points : Option (List GPoint)
  side_width : Int
  text : Option TextLayer
  legend : Option TextLayer
  deriving DecidableEq, Repr

/-- The local `int16_t hexagon_half_height = HEX_HEIGHT(side_width)`. -/
def hexagon_half_height (side_width : Int) : Int := wrap16 (f32_to_int (HEX_HEIGHT side_width))

/-- The function `create_hexagonal_path`: the six points, each coordinate stored in an
`int16_t`.  `side_width / 2` is C integer division (truncating). -/
def create_hexagonal_path (side_width : Int) : List GPoint :=
  let h := hexagon_half_height side_width
  [ ⟨wrap16 0, wrap16 h⟩,
    ⟨wrap16 (Int.tdiv side_width 2), wrap16 0⟩,
    ⟨wrap16 (side_width + Int.tdiv side_width 2), wrap16 0⟩,
    ⟨wrap16 (side_width * 2), wrap16 h⟩,
    ⟨wrap16 (side_width + Int.tdiv side_width 2), wrap16 (h * 2)⟩,
    ⟨wrap16 (Int.tdiv side_width 2), wrap16 (h * 2)⟩ ]

/-- Applies `f` to the element at position `i` of an array held as a list (no effect when
`i` is past the end). -/
def modifyNth {α : Type} (f : α → α) : List α → Nat → List α
  | [], _ => []
  | a :: as, 0 => f a :: as
  | a :: as, n + 1 => a :: modifyNth f as n

/-- The function `create_hexagon`.  Both structs are zeroed by `memset` before the fields
are assigned, so the border fields start as NULL / 0 and both text regions as NULL. -/
def create_hexagon (center : GPoint) (side_width : Int) (color : GColor) : t_hexagon :=
  let points := create_hexagonal_path side_width
  { layer := { data := { color := color, path := points, border_color := GColor.Clear,
                         border_path := none, border_width := 0 },
               dirty := false },
    center := center,
    points := points,
    border_points := none,
    side_width := side_width,
    text := none,
    legend := none }

/-- The function `create_hexagon_with_border`.  The `for` loop over `i = 0 … 5` adds
`offset` to every `x` and `offset - 1` to every `y` of the freshly built inner path. -/
def create_hexagon_with_border (center : GPoint) (side_width : Int) (color : GColor)
    (border_side_width : Int) (border_color : GColor) (border_size : Int) : t_hexagon :=
  let hexagon := create_hexagon center side_width color
  let points := create_hexagonal_path border_side_width
  let offset := side_width - border_side_width
  let points := (List.range 6).foldl
    (fun pts i => modifyNth (fun p => ⟨wrap16 (p.x + offset), wrap16 (p.y + (offset - 1))⟩) pts i)
    points
  { hexagon with
    border_points := some points,
    layer := { hexagon.layer with
      data := { hexagon.layer.data with
        border_path := some points,
        border_color := border_color,
        border_width := border_size } } }

/-- The function `hexagon_set_color`: stores the colour and marks the layer dirty. -/
def hexagon_set_color (hexagon : t_hexagon) (color : GColor) : t_hexagon :=
  { hexagon with layer := { data := { hexagon.layer.data with color := color }, dirty := true } }

/-- The function `hexagon_get_color`. -/
def hexagon_get_color (hexagon : t_hexagon) : GColor := hexagon.layer.data.color

/-- The function `hexagon_set_border_color` (no redraw is requested). -/
def hexagon_set_border_color (hexagon : t_hexagon) (color : GColor) : t_hexagon :=
  { hexagon with layer := { hexagon.layer with
      data := { hexagon.layer.data with border_color := color } } }

/-- The function `hexagon_get_border_color`. -/
def hexagon_get_border_color (hexagon : t_hexagon) : GColor := hexagon.layer.data.border_color

/-- The function `hexagon_init_text_layer`: a new visible text layer replaces `text`. -/
def hexagon_init_text_layer (hexagon : t_hexagon) (color : GColor) (init_text : String) :
    t_hexagon :=
  { hexagon with text := some { text := init_text, text_color := color, hidden := false } }

/-- The function `hexagon_set_text`. -/
def hexagon_set_text (hexagon : t_hexagon) (text : String) : t_hexagon :=
  match hexagon.text with
  | some l => { hexagon with text := some { l with text := text } }
  | none => hexagon

/-- The function `hexagon_set_legend`.  It returns at once when the tile has no label;
otherwise it creates a text layer and attaches it.  The line that would hide the new layer
is commented out in the source, so the layer keeps the visibility `text_layer_create`
gave it. -/
def hexagon_set_legend (hexagon : t_hexagon) (legend_text : String) : t_hexagon :=
  match hexagon.text with
  | none => hexagon
  | some _ =>
    { hexagon with
      legend := some { text := legend_text,
                       text_color := hexagon_get_border_color hexagon,
                       hidden := false } }

/-- The function `hexagon_show_legend`. -/
def hexagon_show_legend (hexagon : t_hexagon) : t_hexagon :=
  match hexagon.legend with
  | some l => { hexagon with legend := some { l with hidden := false } }
  | none => hexagon

/-- The function `hexagon_hide_legend`. -/
def hexagon_hide_legend (hexagon : t_hexagon) : t_hexagon :=
  match hexagon.legend with
  | some l => { hexagon with legend := some { l with hidden := true } }
  | none => hexagon

/-! ## `hexagons.c` -/

/-- The constant `NB_HEXAGONS`. -/
def NB_HEXAGONS : Nat := 18
/-- The constant `HEX_DAYNUM`. -/
def HEX_DAYNUM : Nat := 7
/-- The constant `HEX_DAY`. -/
def HEX_DAY : Nat := 6
/-- The constant `HEX_WEEK`. -/
def HEX_WEEK : Nat := 8
/-- The constant `HEX_YEAR`. -/
def HEX_YEAR : Nat := 15
/-- The constant `HEX_BATT`. -/
def HEX_BATT : Nat := 1
/-- The constant `HEX_MONTH`. -/
def HEX_MONTH : Nat := 0
/-- The constant `INITIAL_COLOR`. -/
def INITIAL_COLOR : GColor := GColor.Black
/-- Pebble SDK: `ANIMATION_NORMALIZED_MAX`. -/
def ANIMATION_NORMALIZED_MAX : Nat := 65535
/-- Pebble SDK: `MINUTE_UNIT = 1 << 1` of `TimeUnits`. -/
def MINUTE_UNIT : Nat := 2

/-- Calls recorded in `Driver.trace`.  An animation handle is the serial number the host
gave it at `animation_create`; `animation_destroy_null` is `animation_destroy(NULL)` and
`destroy_hexagon i` is the call `destroy_hexagon(hexs[i])`. -/
inductive Call where
  | hexagon_set_color (i : Nat) (color : GColor)
  | update_time
  | display_next_color
  | display_legend
  | animation_create (a : Nat)
  | animation_schedule (a : Nat) (duration_ms : Nat)
  | animation_destroy (a : Nat)
  | animation_destroy_null
  | destroy_hexagon (i : Nat)
  | text_layer_destroy
  deriving DecidableEq, Repr

/-- What `update_time` obtains from the host: the `strftime` outputs for the current local
time, the 12/24 h preference and the battery state. -/
structure HostClock where
  clock_is_24h_style : Bool
  hour24 : String
  hour12 : String
  minute : String
  month : String
  daynum : String
  weeknum : String
  year : String
  day : String
  is_charging : Bool
  charge_percent : Nat
  deriving DecidableEq, Repr

/-- The file-scope variables of `hexagons.c`, the host's animation counter and the call
trace (most recent call first).  NULL handles are `none`. -/
structure Driver where
  hexs : List t_hexagon
  g_hour_layer : Option TextLayer
  g_minute_layer : Option TextLayer
  g_next_color_animation : Option Nat
  g_display_legend_animation : Option Nat
  g_current_hex : Int
  color_index : Int
  animations_created : Nat
  trace : List Call
  deriving DecidableEq, Repr

/-- State at program start: the static initialisers (`NULL`, `0`) and an empty registry. -/
def boot : Driver :=
  { hexs := [], g_hour_layer := none, g_minute_layer := none,
    g_next_color_animation := none, g_display_legend_animation := none,
    g_current_hex := 0, color_index := 0, animations_created := 0, trace := [] }

/-- The function `next_color`: the `switch` over `color_index`, `GColorBlack` as fall-through. -/
def next_color (color_index : Int) : GColor :=
  if color_index = 0 then GColor.Green
  else if color_index = 1 then GColor.Orange
  else if color_index = 2 then GColor.Cyan
  else if color_index = 3 then GColor.ShockingPink
  else if color_index = 4 then GColor.Yellow
  else if color_index = 5 then GColor.Red
  else GColor.Black

/-- Records one call in the trace. -/
def record (s : Driver) (c : Call) : Driver := { s with trace := c :: s.trace }

/-- Host `animation_create` followed by the handler / implementation / duration / curve
setters and `animation_schedule`: a fresh non-NULL handle is returned (an allocation
failure is fatal for the program). -/
def animation_create_and_schedule (s : Driver) (duration_ms : Nat) : Nat × Driver :=
  let a := s.animations_created
  (a, { s with animations_created := a + 1,
               trace := Call.animation_schedule a duration_ms :: Call.animation_create a :: s.trace })

/-- The function `display_next_color`. -/
def display_next_color (s : Driver) : Driver :=
  let s := record s Call.display_next_color
  let s := match s.g_next_color_animation with
    | some a => record s (Call.animation_destroy a)
    | none => s
  let (a, s) := animation_create_and_schedule s 1500
  { s with g_next_color_animation := some a }

/-- The function `display_legend`. -/
def display_legend (s : Driver) : Driver :=
  let s := record s Call.display_legend
  let (a, s) := animation_create_and_schedule s 1000
  { s with g_display_legend_animation := some a }

/-- Host `text_layer_set_text`. -/
def text_layer_set_text (l : TextLayer) (text : String) : TextLayer := { l with text := text }

/-- The battery label of `update_time`: `"--"` while charging, else the percentage printed
with `%d` into a 4-byte buffer. -/
def battery_text (clk : HostClock) : String :=
  if clk.is_charging then "--" else (toString clk.charge_percent).take 3

/-- The function `update_time`. -/
def update_time (s : Driver) (clk : HostClock) : Driver :=
  let hour := if clk.clock_is_24h_style then clk.hour24 else clk.hour12
  let set := fun (hexs : List t_hexagon) (i : Nat) (t : String) =>
    modifyNth (fun h => hexagon_set_text h t) hexs i
  let hexs := set s.hexs HEX_MONTH clk.month
  let hexs := set hexs HEX_DAYNUM clk.daynum
  let hexs := set hexs HEX_WEEK clk.weeknum
  let hexs := set hexs HEX_YEAR clk.year
  let hexs := set hexs HEX_DAY clk.day
  let hexs := set hexs HEX_BATT (battery_text clk)
  { s with
    g_hour_layer := s.g_hour_layer.map (fun l => text_layer_set_text l hour),
    g_minute_layer := s.g_minute_layer.map (fun l => text_layer_set_text l clk.minute),
    hexs := hexs,
    trace := Call.update_time :: s.trace }

/-- The function `tick_handler`. -/
def tick_handler (s : Driver) (units_changed : Nat) (clk : HostClock) : Driver :=
  let s := update_time s clk
  if units_changed &&& MINUTE_UNIT ≠ 0 then display_next_color s else s

/-- The function `init_text_layer` (the hour and minute layers). -/
def init_text_layer (color : GColor) (init_text : String) : TextLayer :=
  { text := init_text, text_color := color, hidden := false }

/-- The callback `next_color_animation_started`. -/
def next_color_animation_started (s : Driver) : Driver := { s with g_current_hex := 0 }

/-- The callback `next_color_animation_stopped`; `finished` is not read.  `++color_index`
is an `int16_t` increment. -/
def next_color_animation_stopped (s : Driver) (_finished : Bool) (clk : HostClock) : Driver :=
  let s := { s with g_current_hex := 0 }
  let s := update_time s clk
  let c := wrap16 (s.color_index + 1)
  let s := { s with color_index := if c > 5 then 0 else c }
  if s.g_display_legend_animation = none then display_legend s else s

/-- Body of the `for` loop of `next_color_update_animation` at index `i`. -/
def color_hexagon (s : Driver) (i : Nat) : Driver :=
  if i < NB_HEXAGONS then
    { s with
      hexs := modifyNth (fun h => hexagon_set_color h (next_color s.color_index)) s.hexs i,
      trace := Call.hexagon_set_color i (next_color s.color_index) :: s.trace }
  else s

/-- The `for` loop of `next_color_update_animation`, with the `uint16_t` counter `i` and
bound `target`; `none` when the fuel runs out before the loop condition fails. -/
def color_loop (target : Nat) : Nat → Nat → Driver → Option (Nat × Driver)
  | 0, _, _ => none
  | fuel + 1, i, s =>
    if i < target then color_loop target fuel ((i + 1) % 65536) (color_hexagon s i)
    else some (i, s)

/-- The callback `next_color_update_animation`.  The counter takes at most 65536 values
and the loop condition depends on the counter alone, so 65537 iterations without exit
mean that the loop never exits (`none`). -/
def next_color_update_animation (s : Driver) (time_normalized : Nat) : Option Driver :=
  match color_loop (time_normalized / (ANIMATION_NORMALIZED_MAX / NB_HEXAGONS)) 65537
      (toU16 s.g_current_hex) s with
  | none => none
  | some (i, s1) =>
    some (if (i : Int) ≠ s1.g_current_hex then { s1 with g_current_hex := wrap16 i } else s1)

/-- The callback `legend_animation_started`. -/
def legend_animation_started (s : Driver) : Driver :=
  let hexs := (List.range NB_HEXAGONS).foldl
    (fun hexs i => modifyNth hexagon_show_legend hexs i) s.hexs
  { s with hexs := hexs }

/-- The callback `legend_animation_stopped`. -/
def legend_animation_stopped (s : Driver) (_finished : Bool) : Driver :=
  let hexs := (List.range NB_HEXAGONS).foldl
    (fun hexs i => modifyNth hexagon_hide_legend hexs i) s.hexs
  { s with hexs := hexs }

/-- The callback `legend_update_animation` (empty body). -/
def legend_update_animation (s : Driver) (_time_normalized : Nat) : Driver := s

/-- The float expression `168 - base_interval * HALF_SQRT_3 * k + e` of the layout table,
converted to the `int16_t` coordinate of a `GPoint`; every binary32 operation rounds.  Rows
written without a factor or without an addend have `k = 1` (an exact product) or `e = 0`. -/
def layout_y (base_interval k e : Nat) : Int :=
  let v := f32_round (f32_round (base_interval * HALF_SQRT_3) * k)
  let d := f32_round (168 * 2 ^ 24 - v)
  let r := if e = 0 then d else f32_round (d + e * 2 ^ 24)
  wrap16 (f32_to_int r)

/-- The function `init_hexagons`: the eighteen bordered tiles of the layout table. -/
def init_hexagons (hexa_size hexa_border_size border_width : Int) : List t_hexagon :=
  let base_interval : Nat := 144 / 5
  let b : Int := base_interval
  let mk := fun (x y : Int) =>
    create_hexagon_with_border ⟨wrap16 x, wrap16 y⟩ hexa_size INITIAL_COLOR hexa_border_size
      GColor.Black border_width
  [ mk (4 * b) (layout_y base_interval 1 0),
    mk (b + 2) (layout_y base_interval 1 0),
    mk (144 / 2 - 1) (layout_y base_interval 4 0),
    mk (144 + Int.tdiv b 2 - 5) (layout_y base_interval 2 0),
    mk (Int.tdiv (-b) 2 + 3) (layout_y base_interval 4 0),
    mk (144 + Int.tdiv b 2 - 5) (layout_y base_interval 4 0),
    mk (4 * b) (layout_y base_interval 5 1),
    mk (b + 2) (layout_y base_interval 5 1),
    mk (144 / 2 - 1) (layout_y base_interval 6 0),
    mk (Int.tdiv (-b) 2 + 3) (layout_y base_interval 6 0),
    mk (144 + Int.tdiv b 2 - 5) (layout_y base_interval 6 0),
    mk (4 * b) (-2),
    mk (b + 2) (-2),
    mk (144 / 2 - 1) 167,
    mk (Int.tdiv (-b) 2 + 3) 167,
    mk (144 / 2 - 1) (layout_y base_interval 2 0),
    mk (Int.tdiv (-b) 2 + 3) (layout_y base_interval 2 0),
    mk (144 + Int.tdiv b 2 - 5) 167 ]

/-- The function `main_window_load`; `rand` is the value returned by `rand()`. -/
def main_window_load (s : Driver) (rand : Nat) (clk : HostClock) : Driver :=
  let side : Int := 26
  let b_width : Int := 3
  let hexs := init_hexagons side (side - 4) b_width
  let label := fun (hexs : List t_hexagon) (i : Nat) =>
    modifyNth (fun h => hexagon_init_text_layer h GColor.Black "   ") hexs i
  let hexs := label hexs HEX_MONTH
  let hexs := label hexs HEX_DAY
  let hexs := label hexs HEX_DAYNUM
  let hexs := label hexs HEX_WEEK
  let hexs := label hexs HEX_YEAR
  let hexs := label hexs HEX_BATT
  let legend := fun (hexs : List t_hexagon) (i : Nat) (t : String) =>
    modifyNth (fun h => hexagon_set_legend h t) hexs i
  let hexs := legend hexs HEX_MONTH "mon"
  let hexs := legend hexs HEX_DAY "day"
  let hexs := legend hexs HEX_DAYNUM "day"
  let hexs := legend hexs HEX_WEEK "week"
  let hexs := legend hexs HEX_YEAR "year"
  let hexs := legend hexs HEX_BATT "batt"
  let s := { s with
    hexs := hexs,
    g_hour_layer := some (init_text_layer GColor.White "--"),
    g_minute_layer := some (init_text_layer GColor.White "--"),
    color_index := wrap16 ((rand % 6 : Nat) : Int) }
  let s := update_time s clk
  display_next_color s

/-- Callbacks the host delivers once the window is loaded. -/
inductive Event where
  | tick (units_changed : Nat) (clk : HostClock)
  | sweep_started
  | sweep_update (time_normalized : Nat)
  | sweep_stopped (finished : Bool) (clk : HostClock)
  | legend_started
  | legend_update (time_normalized : Nat)
  | legend_stopped (finished : Bool)
  deriving DecidableEq, Repr

/-- Runs the handler the program registered for the event. -/
def step (s : Driver) : Event → Option Driver
  | Event.tick u clk => some (tick_handler s u clk)
  | Event.sweep_started => some (next_color_animation_started s)
  | Event.sweep_update t => next_color_update_animation s t
  | Event.sweep_stopped f clk => some (next_color_animation_stopped s f clk)
  | Event.legend_started => some (legend_animation_started s)
  | Event.legend_update t => some (legend_update_animation s t)
  | Event.legend_stopped f => some (legend_animation_stopped s f)

/-- Runs the handlers for a sequence of events, in order. -/
def run (s : Driver) : List Event → Option Driver
  | [] => some s
  | e :: es => (step s e).bind (fun s1 => run s1 es)

/-- A sample host reading used in concrete evaluations. -/
def sample_clock : HostClock :=
  { clock_is_24h_style := true, hour24 := "09", hour12 := "09", minute := "41",
    month := "Oct", daynum := "31", weeknum := "43", year := "26", day := "Sat",
    is_charging := false, charge_percent := 80 }

/-- The window just after `main_window_load`, for `rand() = 0` and the sample reading. -/
def loaded : Driver := main_window_load boot 0 sample_clock


/-! ## Vocabulary for the shape of a six-point polygon -/

/-- Vertex `i` of a six-point polygon, indices taken cyclically. -/
def vertex (pts : List GPoint) (i : Nat) : GPoint := pts.getD (i % 6) ⟨0, 0⟩

/-- Squared Euclidean distance between two points. -/
def sq_dist (p q : GPoint) : Int := (q.x - p.x) ^ 2 + (q.y - p.y) ^ 2

/-- Squared length of the side from vertex `i` to vertex `i + 1`. -/
def side_sq (pts : List GPoint) (i : Nat) : Int := sq_dist (vertex pts i) (vertex pts (i + 1))

/-- Cross product of the sides meeting at vertex `i + 1`: its sign is the direction in which
the outline turns there. -/
def turn (pts : List GPoint) (i : Nat) : Int :=
  let p := vertex pts i
  let q := vertex pts (i + 1)
  let r := vertex pts (i + 2)
  (q.x - p.x) * (r.y - q.y) - (q.y - p.y) * (r.x - q.x)

/-- A six-point outline is convex when it never turns in two different directions. -/
def is_convex (pts : List GPoint) : Prop :=
  (∀ i, i < 6 → 0 ≤ turn pts i) ∨ (∀ i, i < 6 → turn pts i ≤ 0)

/-- Width of the bounding box. -/
def bbox_width (pts : List GPoint) : Int :=
  (pts.map GPoint.x).foldl max (vertex pts 0).x - (pts.map GPoint.x).foldl min (vertex pts 0).x

/-- Height of the bounding box. -/
def bbox_height (pts : List GPoint) : Int :=
  (pts.map GPoint.y).foldl max (vertex pts 0).y - (pts.map GPoint.y).foldl min (vertex pts 0).y

/-- The shape claimed for the outer polygon of side `w`: convex, all six sides of length `w`
(squared length `w^2`), top and bottom sides horizontal of length `w`, bounding box
`2w` wide and `w * sqrt 3` high (that is, squared height `3 w^2`). -/
def regular_hexagon_shape (w : Int) : Prop :=
  let pts := create_hexagonal_path w
  pts.length = 6 ∧ is_convex pts ∧
  (∀ i, i < 6 → side_sq pts i = w ^ 2) ∧
  ((vertex pts 1).y = (vertex pts 2).y ∧ (vertex pts 2).x - (vertex pts 1).x = w) ∧
  ((vertex pts 4).y = (vertex pts 5).y ∧ (vertex pts 4).x - (vertex pts 5).x = w) ∧
  bbox_height pts ^ 2 = 3 * w ^ 2 ∧
  bbox_width pts = 2 * w

/-- Translation of a point by `(dx, dy)` in exact integer arithmetic. -/
def translate (dx dy : Int) (p : GPoint) : GPoint := ⟨p.x + dx, p.y + dy⟩

/-- Translation of a point by `(dx, dy)` with `int16_t` coordinates. -/
def translate16 (dx dy : Int) (p : GPoint) : GPoint := ⟨wrap16 (p.x + dx), wrap16 (p.y + dy)⟩


/-! ## Vocabulary for the call trace -/

/-- Whether a recorded call is `hexagon_set_color` on tile `i`. -/
def is_set_color (i : Nat) : Call → Bool
  | Call.hexagon_set_color j _ => j == i
  | _ => false

/-- Number of times the fill colour of tile `i` was set in a trace. -/
def set_color_calls (i : Nat) (tr : List Call) : Nat := tr.countP (is_set_color i)

/-- Number of tiles whose fill colour was set between two traces of the same execution. -/
def tiles_set (before after : List Call) : Nat :=
  ((List.range NB_HEXAGONS).filter
    (fun i => decide (set_color_calls i before < set_color_calls i after))).length

/-- The calls `hexagon_set_color lo col, …, hexagon_set_color (lo + n - 1) col`, most recent
first. -/
def sweep_calls (col : GColor) (lo : Nat) : Nat → List Call
  | 0 => []
  | n + 1 => Call.hexagon_set_color (lo + n) col :: sweep_calls col lo n

/-- The colour palette of the spec, in `color_index` order. -/
def palette : List GColor :=
  [GColor.Green, GColor.Orange, GColor.Cyan, GColor.ShockingPink, GColor.Yellow, GColor.Red]

/-- Whether an event is the colour-sweep `stopped` callback. -/
def is_sweep_stopped : Event → Bool
  | Event.sweep_stopped _ _ => true
  | _ => false

/-- Number of colour-sweep `stopped` callbacks in a sequence of events. -/
def stops (evs : List Event) : Nat := evs.countP is_sweep_stopped

/-- The host's contract for an event: normalized times lie in
`0..ANIMATION_NORMALIZED_MAX`. -/
def in_contract : Event → Prop
  | Event.sweep_update t => t ≤ ANIMATION_NORMALIZED_MAX
  | Event.legend_update t => t ≤ ANIMATION_NORMALIZED_MAX
  | _ => True

/-- Whether a recorded call is an invocation of `display_legend`. -/
def is_display_legend : Call → Bool
  | Call.display_legend => true
  | _ => false

/-- Whether a recorded call schedules a legend-pulse animation (the 1000 ms one). -/
def is_legend_schedule : Call → Bool
  | Call.animation_schedule _ d => d == 1000
  | _ => false

/-- Number of invocations of `display_legend` in a trace. -/
def legend_calls (tr : List Call) : Nat := tr.countP is_display_legend

/-- Number of legend-pulse animations scheduled in a trace. -/
def legend_animations (tr : List Call) : Nat := tr.countP is_legend_schedule

/-- The month tile as `main_window_load` has it just before `hexagon_set_legend` is called on
it: created with a border, label attached. -/
def labelled_tile : t_hexagon :=
  hexagon_init_text_layer
    (create_hexagon_with_border ⟨112, 143⟩ 26 INITIAL_COLOR 22 GColor.Black 3) GColor.Black "   "

/-- A sample sequence of host events: a full sweep, its stop, a minute tick, the legend pulse
and five more stops. -/
def sample_events : List Event :=
  [ Event.sweep_started, Event.sweep_update 30000, Event.sweep_update 65535,
    Event.sweep_stopped true sample_clock, Event.legend_started, Event.legend_update 65535,
    Event.legend_stopped true, Event.tick 2 sample_clock, Event.sweep_started,
    Event.sweep_stopped false sample_clock, Event.sweep_stopped true sample_clock,
    Event.sweep_stopped true sample_clock, Event.sweep_stopped true sample_clock,
    Event.sweep_stopped true sample_clock ]

/-! ## Painting and teardown -/

/-- Value of the cast `(uint8_t) n`. -/
def toU8 (n : Int) : Int := n % 256

/-- Drawing calls a paint callback makes on the graphics context. -/
inductive DrawOp where
  | graphics_context_set_fill_color (color : GColor)
  | gpath_draw_filled (path : List GPoint)
  | graphics_context_set_stroke_color (color : GColor)
  | graphics_context_set_stroke_width (width : Int)
  | gpath_draw_outline (path : List GPoint)
  deriving DecidableEq, Repr

/-- The paint callback `hexagon_update_proc`: the drawing calls it makes, in order. -/
def hexagon_update_proc (layer : Layer) : List DrawOp :=
  let layer_data := layer.data
  let ops := [ DrawOp.graphics_context_set_fill_color layer_data.color,
               DrawOp.gpath_draw_filled layer_data.path ]
  match layer_data.border_path with
  | some border_path =>
    ops ++ [ DrawOp.graphics_context_set_stroke_color layer_data.border_color,
             DrawOp.graphics_context_set_stroke_width (toU8 layer_data.border_width),
             DrawOp.gpath_draw_outline border_path ]
  | none => ops

/-- The function `main_window_unload`: the `for` loop `i = 0 … 15` over `destroy_hexagon`,
the two `text_layer_destroy` calls and the two guarded `animation_destroy` calls, both of
which pass `g_next_color_animation`.  No variable is reset. -/
def main_window_unload (s : Driver) : Driver :=
  let s := (List.range 16).foldl (fun s i => record s (Call.destroy_hexagon i)) s
  let s := record s Call.text_layer_destroy
  let s := record s Call.text_layer_destroy
  let s := match s.g_next_color_animation with
    | some a => record s (Call.animation_destroy a)
    | none => s
  match s.g_display_legend_animation with
  | some _ =>
    (match s.g_next_color_animation with
     | some a => record s (Call.animation_destroy a)
     | none => record s Call.animation_destroy_null)
  | none => s

/-! ## Vocabulary for handles, ranges and teardown -/

/-- A colour-sweep animation (the 1500 ms one) with handle `a` is live in a trace: it was
scheduled and has not been passed to `animation_destroy`. -/
def sweep_live (tr : List Call) (a : Nat) : Prop :=
  Call.animation_schedule a 1500 ∈ tr ∧ Call.animation_destroy a ∉ tr

/-- Bookkeeping of animation handles: destroyed handles are old ones, a live colour-sweep
animation is the one `g_next_color_animation` holds, and that handle is an old one. -/
def handles_ok (s : Driver) : Prop :=
  (∀ a, Call.animation_destroy a ∈ s.trace → a < s.animations_created) ∧
  (∀ a, sweep_live s.trace a → s.g_next_color_animation = some a) ∧
  (∀ a, s.g_next_color_animation = some a → a < s.animations_created)

/-- The ranges of the animation state: `color_index` in `0..5`, the cursor in `0..18`, and
every colour ever passed to `hexagon_set_color` a palette colour on a tile index below 18. -/
def state_ranges (s : Driver) : Prop :=
  (0 ≤ s.color_index ∧ s.color_index ≤ 5) ∧
  (0 ≤ s.g_current_hex ∧ s.g_current_hex ≤ 18) ∧
  (∀ i col, Call.hexagon_set_color i col ∈ s.trace → col ∈ palette ∧ i < NB_HEXAGONS)

/-- The calls a `tick_handler` run adds to the trace when the minute changed, given the
handle `held` in `g_next_color_animation` and the number `n` of animations created so
far (most recent first). -/
def minute_tick_calls (held : Option Nat) (n : Nat) : List Call :=
  Call.animation_schedule n 1500 :: Call.animation_create n ::
    ((match held with
      | some b => [Call.animation_destroy b]
      | none => []) ++ [Call.display_next_color, Call.update_time])

/-- The six time-derived labels `update_time` writes: tile index and new text. -/
def time_labels (clk : HostClock) : List (Nat × String) :=
  [ (HEX_MONTH, clk.month), (HEX_DAYNUM, clk.daynum), (HEX_WEEK, clk.weeknum),
    (HEX_YEAR, clk.year), (HEX_DAY, clk.day), (HEX_BATT, battery_text clk) ]

/-- Number of `destroy_hexagon` calls on tile `i` in a trace. -/
def destroy_hexagon_calls (i : Nat) (tr : List Call) : Nat :=
  tr.count (Call.destroy_hexagon i)

/-- Number of `animation_destroy` calls on handle `a` in a trace. -/
def animation_destroy_calls (a : Nat) (tr : List Call) : Nat :=
  tr.count (Call.animation_destroy a)

/-- The drawing calls the redraw contract of the spec prescribes for a tile. -/
def redraw_contract (h : t_hexagon) : List DrawOp :=
  [ DrawOp.graphics_context_set_fill_color h.layer.data.color,
    DrawOp.gpath_draw_filled h.layer.data.path ] ++
  (match h.layer.data.border_path with
   | some border_path =>
     [ DrawOp.graphics_context_set_stroke_color h.layer.data.border_color,
       DrawOp.graphics_context_set_stroke_width h.layer.data.border_width,
       DrawOp.gpath_draw_outline border_path ]
   | none => [])

/-- The window after a complete first colour sweep: both animation handles exist. -/
def after_first_sweep : Option Driver :=
  run loaded [ Event.sweep_started, Event.sweep_update 65535,
               Event.sweep_stopped true sample_clock ]

/-- Whether tile `i` of a registry exists and has a label attached. -/
def has_label (hexs : List t_hexagon) (i : Nat) : Bool :=
  ((hexs[i]?).bind (fun h => h.text)).isSome

/-- The text the label of tile `i` displays, if the tile exists and has a label. -/
def label_text (hexs : List t_hexagon) (i : Nat) : Option String :=
  ((hexs[i]?).bind (fun h => h.text)).map (fun l => l.text)

/-- A second host reading, one day after the sample one, with the watch charging. -/
def later_clock : HostClock :=
  { clock_is_24h_style := true, hour24 := "00", hour12 := "12", minute := "00",
    month := "Nov", daynum := "01", weeknum := "43", year := "26", day := "Sun",
    is_charging := true, charge_percent := 81 }

/-! ## Arithmetic of the half-height -/

theorem f32_excess_le (fuel p : Nat) (h : 0 < f32_excess fuel p) :
    2 ^ (23 + f32_excess fuel p) ≤ p := by
  induction fuel generalizing p with
  | zero => simp [f32_excess] at h
  | succ n ih =>
    unfold f32_excess at h ⊢
    split_ifs at h ⊢ with hp
    · simp at h
    · by_cases h0 : 0 < f32_excess n (p / 2)
      · have := ih (p / 2) h0
        have e : 2 ^ (23 + (f32_excess n (p / 2) + 1)) = 2 * 2 ^ (23 + f32_excess n (p / 2)) := by
          rw [← Nat.add_assoc, Nat.pow_succ]; ring
        rw [e]; omega
      · have : f32_excess n (p / 2) = 0 := by omega
        rw [this]; norm_num at hp ⊢; omega

theorem f32_round_le (p : Nat) : f32_round p * 2 ^ 24 ≤ p * (2 ^ 24 + 1) := by
  unfold f32_round
  simp only []
  generalize hsh : f32_excess 64 p = sh
  have hdm := Nat.div_add_mod p (2 ^ sh)
  have hpos : 0 < 2 ^ sh := Nat.pow_pos (by norm_num)
  split_ifs with hc
  · have hsh0 : 0 < sh := by
      rcases Nat.eq_zero_or_pos sh with h0 | h0
      · subst h0; simp [Nat.mod_one] at hc
      · exact h0
    have hle := f32_excess_le 64 p (by rw [hsh]; exact hsh0)
    rw [hsh] at hle
    have e : 2 ^ (23 + sh) = 2 ^ 23 * 2 ^ sh := by rw [Nat.pow_add]
    rw [e] at hle
    have hr : p % 2 ^ sh < 2 ^ sh := Nat.mod_lt _ hpos
    have h2r : 2 ^ sh ≤ 2 * (p % 2 ^ sh) := by
      rcases hc with hc | hc
      · omega
      · omega
    generalize p / 2 ^ sh = q at *
    generalize p % 2 ^ sh = r at *
    generalize 2 ^ sh = B at *
    nlinarith
  · have : p / 2 ^ sh * 2 ^ sh ≤ p := Nat.div_mul_le_self p (2 ^ sh)
    nlinarith

theorem half_height_nat_le (n : Nat) : f32_round (n * HALF_SQRT_3) / 2 ^ 24 ≤ n := by
  have h := f32_round_le (n * HALF_SQRT_3)
  apply Nat.div_le_of_le_mul
  unfold HALF_SQRT_3 at h ⊢
  norm_num at h ⊢
  omega

theorem wrap16_eq (n : Int) (h1 : -32768 ≤ n) (h2 : n ≤ 32767) : wrap16 n = n := by
  unfold wrap16; omega

theorem tdiv_two (w : Int) :
    (0 ≤ w → Int.tdiv w 2 = w / 2) ∧ (w < 0 → Int.tdiv w 2 = -((-w) / 2)) := by
  constructor
  · intro h; exact Int.tdiv_eq_ediv h (by norm_num)
  · intro h
    have : w = -(-w) := by omega
    rw [this, Int.neg_tdiv, Int.tdiv_eq_ediv (by omega) (by norm_num)]
    simp

theorem half_height_bounds (w : Int) :
    (0 ≤ w → 0 ≤ f32_to_int (HEX_HEIGHT w) ∧ f32_to_int (HEX_HEIGHT w) ≤ w) ∧
    (w < 0 → w ≤ f32_to_int (HEX_HEIGHT w) ∧ f32_to_int (HEX_HEIGHT w) ≤ 0) := by
  have key := half_height_nat_le w.natAbs
  have cast : ((f32_round (w.natAbs * HALF_SQRT_3) : Nat) : Int).tdiv (2 ^ 24)
      = ((f32_round (w.natAbs * HALF_SQRT_3) / 2 ^ 24 : Nat) : Int) := by
    rw [Int.tdiv_eq_ediv (by positivity) (by norm_num)]
    norm_cast
  constructor
  · intro h
    unfold f32_to_int HEX_HEIGHT
    rw [if_pos h, cast]
    omega
  · intro h
    unfold f32_to_int HEX_HEIGHT
    rw [if_neg (by omega), Int.neg_tdiv, cast]
    omega

theorem half_height_eq (w : Int) (hlo : -32768 ≤ 2 * w) (hhi : 2 * w ≤ 32767) :
    hexagon_half_height w = f32_to_int (HEX_HEIGHT w) := by
  have hb := half_height_bounds w
  unfold hexagon_half_height
  apply wrap16_eq
  · rcases Int.lt_or_le w 0 with h | h
    · have := hb.2 h; omega
    · have := hb.1 h; omega
  · rcases Int.lt_or_le w 0 with h | h
    · have := hb.2 h; omega
    · have := hb.1 h; omega

theorem path_exact (w : Int) (hlo : -32768 ≤ 2 * w) (hhi : 2 * w ≤ 32767) :
    create_hexagonal_path w =
      [ ⟨0, f32_to_int (HEX_HEIGHT w)⟩,
        ⟨Int.tdiv w 2, 0⟩,
        ⟨w + Int.tdiv w 2, 0⟩,
        ⟨2 * w, f32_to_int (HEX_HEIGHT w)⟩,
        ⟨w + Int.tdiv w 2, 2 * f32_to_int (HEX_HEIGHT w)⟩,
        ⟨Int.tdiv w 2, 2 * f32_to_int (HEX_HEIGHT w)⟩ ] := by
  have hb := half_height_bounds w
  have hd := tdiv_two w
  have hH := half_height_eq w hlo hhi
  unfold create_hexagonal_path
  simp only [hH]
  generalize f32_to_int (HEX_HEIGHT w) = H at *
  generalize Int.tdiv w 2 = a at *
  have ha : (0 ≤ w → a = w / 2) ∧ (w < 0 → a = -((-w) / 2)) := hd
  have hH1 : -16384 ≤ H ∧ H ≤ 16383 := by
    rcases Int.lt_or_le w 0 with h | h
    · have := hb.2 h; omega
    · have := hb.1 h; omega
  have ha1 : -32768 ≤ w + a ∧ w + a ≤ 32767 ∧ -32768 ≤ a ∧ a ≤ 32767 := by
    rcases Int.lt_or_le w 0 with h | h
    · have := ha.2 h; omega
    · have := ha.1 h; omega
  rw [wrap16_eq 0 (by norm_num) (by norm_num), wrap16_eq H (by omega) (by omega),
    wrap16_eq a (by omega) (by omega), wrap16_eq (w + a) (by omega) (by omega),
    wrap16_eq (w * 2) (by omega) (by omega), wrap16_eq (H * 2) (by omega) (by omega)]
  simp [Int.mul_comm]

theorem offset_loop_six {α : Type} (f : α → α) (a b c d e g : α) :
    (List.range 6).foldl (fun pts i => modifyNth f pts i) [a, b, c, d, e, g]
      = [f a, f b, f c, f d, f e, f g] := rfl

/-- C5: for every side width `w` with `2*w` in `int16_t` range, `create_hexagonal_path w`
is the six points left, upper-left, upper-right, right, lower-right, lower-left
`(0,H), (w/2,0), (w+w/2,0), (2w,H), (w+w/2,2H), (w/2,2H)` with `H` the binary32 product
`w * HALF_SQRT_3` truncated to an integer and `w/2` the truncating division, and
`create_hexagon` stores exactly these points as the outer polygon, whatever the centre. -/
theorem C5_outer_vertices (w : Int) (hlo : -32768 ≤ 2 * w) (hhi : 2 * w ≤ 32767) :
    create_hexagonal_path w =
      [ ⟨0, f32_to_int (HEX_HEIGHT w)⟩,
        ⟨Int.tdiv w 2, 0⟩,
        ⟨w + Int.tdiv w 2, 0⟩,
        ⟨2 * w, f32_to_int (HEX_HEIGHT w)⟩,
        ⟨w + Int.tdiv w 2, 2 * f32_to_int (HEX_HEIGHT w)⟩,
        ⟨Int.tdiv w 2, 2 * f32_to_int (HEX_HEIGHT w)⟩ ] ∧
    ∀ (center : GPoint) (color : GColor),
      (create_hexagon center w color).points = create_hexagonal_path w ∧
      (create_hexagon center w color).layer.data.path = create_hexagonal_path w :=
  ⟨path_exact w hlo hhi, fun _ _ => ⟨rfl, rfl⟩⟩

/-- Witness for C5: the theorem applied at a concrete input. -/
theorem C5_outer_vertices_witness :
    create_hexagonal_path 26 = [⟨0, 22⟩, ⟨13, 0⟩, ⟨39, 0⟩, ⟨52, 22⟩, ⟨39, 44⟩, ⟨13, 44⟩] ∧
    (create_hexagon ⟨112, 143⟩ 26 GColor.Black).points = create_hexagonal_path 26 :=
  ⟨(C5_outer_vertices 26 (by decide) (by decide)).1.trans (by decide),
   ((C5_outer_vertices 26 (by decide) (by decide)).2 ⟨112, 143⟩ GColor.Black).1⟩

theorem half_height_nat_lt (n : Nat) (hn : 0 < n) : f32_round (n * HALF_SQRT_3) / 2 ^ 24 < n := by
  have h := f32_round_le (n * HALF_SQRT_3)
  apply Nat.div_lt_of_lt_mul
  unfold HALF_SQRT_3 at h ⊢
  norm_num at h ⊢
  omega

theorem half_height_lt (w : Int) (hw : 0 < w) : f32_to_int (HEX_HEIGHT w) < w := by
  have key := half_height_nat_lt w.natAbs (by omega)
  have cast : ((f32_round (w.natAbs * HALF_SQRT_3) : Nat) : Int).tdiv (2 ^ 24)
      = ((f32_round (w.natAbs * HALF_SQRT_3) / 2 ^ 24 : Nat) : Int) := by
    rw [Int.tdiv_eq_ediv (by positivity) (by norm_num)]
    norm_cast
  unfold f32_to_int HEX_HEIGHT
  rw [if_pos (by omega), cast]
  omega

/-- C6, as stated, fails for the side width the watchface uses: for `w = 26` the slanted
side from `(0,22)` to `(13,0)` has squared length `653`, not `26^2 = 676`. -/
theorem C6_counterexample :
    side_sq (create_hexagonal_path 26) 0 = 653 ∧ ¬ regular_hexagon_shape 26 := by
  refine ⟨by decide, fun h => ?_⟩
  exact absurd (h.2.2.1 0 (by decide)) (by decide)

/-- C6 (amended): for every side width `w > 0` with `2*w` in `int16_t` range the six outer
vertices form a convex hexagon whose top and bottom sides are horizontal of length `w`, whose
bounding box is `2*w` wide and `2*H` high, `H` being the truncated half-height
(`0 ≤ H < w`), and whose four slanted sides have squared length `(w/2)^2 + H^2` on the left
and `(w - w/2)^2 + H^2` on the right. -/
theorem C6_hexagon_shape (w : Int) (hpos : 0 < w) (hhi : 2 * w ≤ 32767) :
    (create_hexagonal_path w).length = 6 ∧
    is_convex (create_hexagonal_path w) ∧
    ((vertex (create_hexagonal_path w) 1).y = (vertex (create_hexagonal_path w) 2).y ∧
      (vertex (create_hexagonal_path w) 2).x - (vertex (create_hexagonal_path w) 1).x = w) ∧
    ((vertex (create_hexagonal_path w) 4).y = (vertex (create_hexagonal_path w) 5).y ∧
      (vertex (create_hexagonal_path w) 4).x - (vertex (create_hexagonal_path w) 5).x = w) ∧
    bbox_width (create_hexagonal_path w) = 2 * w ∧
    bbox_height (create_hexagonal_path w) = 2 * f32_to_int (HEX_HEIGHT w) ∧
    (0 ≤ f32_to_int (HEX_HEIGHT w) ∧ f32_to_int (HEX_HEIGHT w) < w) ∧
    side_sq (create_hexagonal_path w) 1 = w ^ 2 ∧
    side_sq (create_hexagonal_path w) 4 = w ^ 2 ∧
    side_sq (create_hexagonal_path w) 0 = (w / 2) ^ 2 + f32_to_int (HEX_HEIGHT w) ^ 2 ∧
    side_sq (create_hexagonal_path w) 5 = (w / 2) ^ 2 + f32_to_int (HEX_HEIGHT w) ^ 2 ∧
    side_sq (create_hexagonal_path w) 2 = (w - w / 2) ^ 2 + f32_to_int (HEX_HEIGHT w) ^ 2 ∧
    side_sq (create_hexagonal_path w) 3 = (w - w / 2) ^ 2 + f32_to_int (HEX_HEIGHT w) ^ 2 := by
  have hp := path_exact w (by omega) hhi
  have hH0 := (half_height_bounds w).1 (by omega)
  have hHlt := half_height_lt w hpos
  have ha := (tdiv_two w).1 (by omega)
  rw [hp, ha]
  generalize f32_to_int (HEX_HEIGHT w) = H at *
  have ha0 : 0 ≤ w / 2 := by omega
  have ha1 : 0 ≤ w - w / 2 := by omega
  generalize hA : w / 2 = a at *
  refine ⟨rfl, ?_, ?_, ?_, ?_, ?_, ⟨hH0.1, hHlt⟩, ?_, ?_, ?_, ?_, ?_, ?_⟩
  · left
    intro i hi
    interval_cases i <;> simp [turn, vertex] <;> nlinarith [mul_nonneg hpos.le hH0.1,
      mul_nonneg ha0 hH0.1, mul_nonneg ha1 hH0.1]
  · simp [vertex]
  · simp [vertex]
  · simp only [bbox_width, vertex, List.map, List.foldl, Nat.zero_mod, List.getD_cons_zero]
    omega
  · simp only [bbox_height, vertex, List.map, List.foldl, Nat.zero_mod, List.getD_cons_zero]
    omega
  all_goals simp [side_sq, sq_dist, vertex] <;> ring

/-- Witness for C6: the theorem applied at a concrete input. -/
theorem C6_hexagon_shape_witness :
    is_convex (create_hexagonal_path 26) ∧ bbox_width (create_hexagonal_path 26) = 2 * 26 ∧
      bbox_height (create_hexagonal_path 26) = 2 * f32_to_int (HEX_HEIGHT 26) :=
  ⟨(C6_hexagon_shape 26 (by decide) (by decide)).2.1,
   (C6_hexagon_shape 26 (by decide) (by decide)).2.2.2.2.1,
   (C6_hexagon_shape 26 (by decide) (by decide)).2.2.2.2.2.1⟩

theorem border_points_eq (center : GPoint) (outer inner : Int) (color bcolor : GColor)
    (bsize : Int) :
    (create_hexagon_with_border center outer color inner bcolor bsize).border_points =
      some ((create_hexagonal_path inner).map
        (translate16 (outer - inner) (outer - inner - 1))) ∧
    (create_hexagon_with_border center outer color inner bcolor bsize).layer.data.border_path =
      (create_hexagon_with_border center outer color inner bcolor bsize).border_points := by
  constructor
  · simp only [create_hexagon_with_border, create_hexagonal_path, offset_loop_six]
    rfl
  · rfl

theorem translate16_path_exact (inner dx dy : Int) (h0 : 0 ≤ inner) (hdx0 : 0 ≤ dx)
    (hdy0 : -1 ≤ dy) (hdx : 2 * inner + dx ≤ 32767) (hdy : 2 * inner + dy ≤ 32767) :
    (create_hexagonal_path inner).map (translate16 dx dy) =
      (create_hexagonal_path inner).map (translate dx dy) := by
  have hp := path_exact inner (by omega) (by omega)
  have hb := (half_height_bounds inner).1 h0
  have ha := (tdiv_two inner).1 h0
  rw [hp, ha]
  generalize f32_to_int (HEX_HEIGHT inner) = H at *
  simp only [List.map, translate16, translate]
  rw [wrap16_eq (0 + dx) (by omega) (by omega), wrap16_eq (H + dy) (by omega) (by omega),
    wrap16_eq (inner / 2 + dx) (by omega) (by omega), wrap16_eq (0 + dy) (by omega) (by omega),
    wrap16_eq (inner + inner / 2 + dx) (by omega) (by omega),
    wrap16_eq (2 * inner + dx) (by omega) (by omega),
    wrap16_eq (2 * H + dy) (by omega) (by omega)]

/-- C7, as stated for every pair `innerSide < outerSide`, fails where a translated coordinate
leaves the `int16_t` range: for `outerSide = 20000`, `innerSide = 15000` the right vertex
`(30000, 12990)` is stored as `(-30536, 17989)`, not as `(35000, 17989)`. -/
theorem C7_counterexample :
    (create_hexagon_with_border ⟨0, 0⟩ 20000 GColor.Black 15000 GColor.Black 3).border_points
      ≠ some ((create_hexagonal_path 15000).map (translate (20000 - 15000) (20000 - 15000 - 1))) ∧
    ((create_hexagon_with_border ⟨0, 0⟩ 20000 GColor.Black 15000 GColor.Black 3).border_points.map
      (fun pts => vertex pts 3)) = some ⟨-30536, 17989⟩ ∧
    vertex ((create_hexagonal_path 15000).map (translate (20000 - 15000) (20000 - 15000 - 1))) 3
      = ⟨35000, 17989⟩ := by
  decide

/-- C7 (amended): for `innerSide < outerSide` the stored border points (and the border path
drawn from them) are `create_hexagonal_path innerSide` translated point by point by
`(outerSide - innerSide, outerSide - innerSide - 1)` in `int16_t` arithmetic; the translation
is exact when `0 ≤ innerSide` and `2 * outerSide` is in `int16_t` range; the outer polygon is
`create_hexagonal_path outerSide`, untranslated. -/
theorem C7_border_polygon (center : GPoint) (outer inner : Int) (color bcolor : GColor)
    (bsize : Int) (hlt : inner < outer) :
    (create_hexagon_with_border center outer color inner bcolor bsize).border_points =
      some ((create_hexagonal_path inner).map
        (translate16 (outer - inner) (outer - inner - 1))) ∧
    (create_hexagon_with_border center outer color inner bcolor bsize).layer.data.border_path =
      (create_hexagon_with_border center outer color inner bcolor bsize).border_points ∧
    (0 ≤ inner → 2 * outer ≤ 32767 →
      (create_hexagon_with_border center outer color inner bcolor bsize).border_points =
        some ((create_hexagonal_path inner).map
          (translate (outer - inner) (outer - inner - 1)))) ∧
    (create_hexagon_with_border center outer color inner bcolor bsize).points =
      create_hexagonal_path outer ∧
    (create_hexagon_with_border center outer color inner bcolor bsize).layer.data.path =
      create_hexagonal_path outer := by
  have h := border_points_eq center outer inner color bcolor bsize
  refine ⟨h.1, h.2, ?_, rfl, rfl⟩
  intro h0 hhi
  rw [h.1, translate16_path_exact inner _ _ h0 (by omega) (by omega) (by omega) (by omega)]

/-- Witness for C7: the theorem applied at a concrete input. -/
theorem C7_border_polygon_witness :
    (create_hexagon_with_border ⟨112, 143⟩ 26 GColor.Black 22 GColor.Black 3).border_points =
      some ((create_hexagonal_path 22).map (translate (26 - 22) (26 - 22 - 1))) :=
  (C7_border_polygon ⟨112, 143⟩ 26 22 GColor.Black GColor.Black 3 (by decide)).2.2.1
    (by decide) (by decide)

/-- C8, as stated, fails: with `innerSide = outerSide = 26` the stored border points are not
the outer points; every `y` is one less (the left vertex is `(0,21)`, not `(0,22)`). -/
theorem C8_counterexample :
    (create_hexagon_with_border ⟨0, 0⟩ 26 GColor.Black 26 GColor.Black 3).border_points
      ≠ some (create_hexagonal_path 26) ∧
    (create_hexagon_with_border ⟨0, 0⟩ 26 GColor.Black 26 GColor.Black 3).border_points
      = some [⟨0, 21⟩, ⟨13, -1⟩, ⟨39, -1⟩, ⟨52, 21⟩, ⟨39, 43⟩, ⟨13, 43⟩] ∧
    create_hexagonal_path 26 = [⟨0, 22⟩, ⟨13, 0⟩, ⟨39, 0⟩, ⟨52, 22⟩, ⟨39, 44⟩, ⟨13, 44⟩] := by
  decide

/-- C8 (amended): when `innerSide = outerSide = s` the translation applied by
`create_hexagon_with_border` is `(0, -1)`, not zero: for every side width `s` the stored border
points are the six outer points `create_hexagonal_path s` with every `y` decreased by one in
`int16_t` arithmetic, exactly so (and hence different from the outer points) when `0 ≤ s` and
`2*s` is in `int16_t` range; the outer polygon itself is `create_hexagonal_path s`. -/
theorem C8_equal_sides (center : GPoint) (s : Int) (color bcolor : GColor) (bsize : Int) :
    (create_hexagon_with_border center s color s bcolor bsize).border_points =
      some ((create_hexagonal_path s).map (translate16 0 (-1))) ∧
    (0 ≤ s → 2 * s ≤ 32767 →
      (create_hexagon_with_border center s color s bcolor bsize).border_points =
        some ((create_hexagonal_path s).map (translate 0 (-1))) ∧
      (create_hexagon_with_border center s color s bcolor bsize).border_points ≠
        some (create_hexagonal_path s)) ∧
    (create_hexagon_with_border center s color s bcolor bsize).points =
      create_hexagonal_path s := by
  have h := border_points_eq center s s color bcolor bsize
  have e1 : s - s = 0 := by omega
  have e2 : (0 : Int) - 1 = -1 := rfl
  rw [e1, e2] at h
  refine ⟨h.1, ?_, rfl⟩
  intro h0 hhi
  have hx := translate16_path_exact s 0 (-1) h0 (by omega) (by omega) (by omega) (by omega)
  refine ⟨by rw [h.1, hx], ?_⟩
  rw [h.1, hx, path_exact s (by omega) hhi]
  simp [translate]

/-- Witness for C8 (amended) at the side width the watchface uses. -/
theorem C8_equal_sides_witness :
    (create_hexagon_with_border ⟨0, 0⟩ 26 GColor.Black 26 GColor.Black 3).border_points =
      some ((create_hexagonal_path 26).map (translate 0 (-1))) :=
  ((C8_equal_sides ⟨0, 0⟩ 26 GColor.Black GColor.Black 3).2.1 (by decide) (by decide)).1

/-! ## The colour sweep -/

theorem modifyNth_getElem? {α : Type} (f : α → α) (l : List α) (i j : Nat) :
    (modifyNth f l i)[j]? = if j = i then (l[j]?).map f else l[j]? := by
  induction l generalizing i j with
  | nil => simp [modifyNth]
  | cons a as ih =>
    cases i with
    | zero => cases j <;> simp [modifyNth]
    | succ i => cases j <;> simp [modifyNth, ih]

theorem modifyNth_length {α : Type} (f : α → α) (l : List α) (i : Nat) :
    (modifyNth f l i).length = l.length := by
  induction l generalizing i with
  | nil => simp [modifyNth]
  | cons a as ih => cases i <;> simp [modifyNth, ih]

theorem sweep_calls_shift (col : GColor) (lo n : Nat) (tr : List Call) :
    sweep_calls col (lo + 1) n ++ Call.hexagon_set_color lo col :: tr
      = sweep_calls col lo (n + 1) ++ tr := by
  induction n with
  | zero => simp [sweep_calls]
  | succ n ih =>
    have e : lo + 1 + n = lo + (n + 1) := by omega
    rw [sweep_calls, List.cons_append, ih, e]
    rfl

theorem color_loop_exit (T fuel i : Nat) (s : Driver) (h : T ≤ i) :
    color_loop T (fuel + 1) i s = some (i, s) := by
  simp [color_loop, Nat.not_lt.mpr h]

theorem color_loop_spec (T : Nat) (hT : T ≤ 18) :
    ∀ (n fuel i : Nat) (s : Driver), i + n = T → n < fuel →
      ∃ s', color_loop T fuel i s = some (T, s') ∧
        s' = { s with hexs := s'.hexs, trace := s'.trace } ∧
        s'.trace = sweep_calls (next_color s.color_index) i n ++ s.trace ∧
        ∀ j, s'.hexs[j]? =
          if i ≤ j ∧ j < T then
            (s.hexs[j]?).map (fun h => hexagon_set_color h (next_color s.color_index))
          else s.hexs[j]? := by
  intro n
  induction n with
  | zero =>
    intro fuel i s hi hf
    obtain ⟨f, rfl⟩ : ∃ f, fuel = f + 1 := ⟨fuel - 1, by omega⟩
    have hiT : i = T := by omega
    subst hiT
    refine ⟨s, color_loop_exit _ _ _ _ (Nat.le_refl _), rfl, by simp [sweep_calls], ?_⟩
    intro j
    rw [if_neg (by omega)]
  | succ n ih =>
    intro fuel i s hi hf
    obtain ⟨f, rfl⟩ : ∃ f, fuel = f + 1 := ⟨fuel - 1, by omega⟩
    have hlt : i < T := by omega
    have hmod : (i + 1) % 65536 = i + 1 := Nat.mod_eq_of_lt (by omega)
    have h18 : i < NB_HEXAGONS := by unfold NB_HEXAGONS; omega
    obtain ⟨s', hrun, hframe, htrace, hhexs⟩ :=
      ih f (i + 1) (color_hexagon s i) (by omega) (by omega)
    have hci : (color_hexagon s i).color_index = s.color_index := by
      simp [color_hexagon, h18]
    have htr1 : (color_hexagon s i).trace =
        Call.hexagon_set_color i (next_color s.color_index) :: s.trace := by
      simp [color_hexagon, h18]
    have hhx1 : (color_hexagon s i).hexs =
        modifyNth (fun h => hexagon_set_color h (next_color s.color_index)) s.hexs i := by
      simp [color_hexagon, h18]
    refine ⟨s', ?_, ?_, ?_, ?_⟩
    · rw [color_loop, if_pos hlt, hmod]; exact hrun
    · rw [hframe]; simp [color_hexagon, h18]
    · rw [htrace, hci, htr1, sweep_calls_shift]
    · intro j
      rw [hhexs j, hci, hhx1, modifyNth_getElem?]
      by_cases h1 : j = i
      · subst h1
        rw [if_neg (by omega), if_pos rfl, if_pos ⟨Nat.le_refl _, hlt⟩]
      · by_cases h2 : i + 1 ≤ j ∧ j < T
        · rw [if_pos h2, if_neg h1, if_pos ⟨by omega, h2.2⟩]
        · rw [if_neg h2, if_neg h1, if_neg (by omega)]

theorem target_le (t : Nat) (ht : t ≤ 65535) :
    t / (ANIMATION_NORMALIZED_MAX / NB_HEXAGONS) ≤ 18 := by
  unfold ANIMATION_NORMALIZED_MAX NB_HEXAGONS
  omega

/-- One call of `next_color_update_animation` with `time_normalized ≤ 65535`, for an
arbitrary state: it returns, with `lo = (uint16_t) g_current_hex` it paints the tiles
`lo ≤ j < target` and touches nothing but the tiles, the trace and the cursor. -/
theorem update_spec (s : Driver) (t : Nat) (ht : t ≤ 65535) :
    ∃ s', next_color_update_animation s t = some s' ∧
      s' = { s with hexs := s'.hexs, trace := s'.trace, g_current_hex := s'.g_current_hex } ∧
      s'.trace = sweep_calls (next_color s.color_index) (toU16 s.g_current_hex)
          (t / (ANIMATION_NORMALIZED_MAX / NB_HEXAGONS) - toU16 s.g_current_hex) ++ s.trace ∧
      (∀ j, s'.hexs[j]? =
        if toU16 s.g_current_hex ≤ j ∧ j < t / (ANIMATION_NORMALIZED_MAX / NB_HEXAGONS) then
          (s.hexs[j]?).map (fun h => hexagon_set_color h (next_color s.color_index))
        else s.hexs[j]?) ∧
      (toU16 s.g_current_hex < t / (ANIMATION_NORMALIZED_MAX / NB_HEXAGONS) →
        s'.g_current_hex = ((t / (ANIMATION_NORMALIZED_MAX / NB_HEXAGONS) : Nat) : Int)) ∧
      (¬ toU16 s.g_current_hex < t / (ANIMATION_NORMALIZED_MAX / NB_HEXAGONS) →
        -32768 ≤ s.g_current_hex → s.g_current_hex ≤ 32767 →
        s'.g_current_hex = s.g_current_hex) := by
  have hT := target_le t ht
  generalize hTdef : t / (ANIMATION_NORMALIZED_MAX / NB_HEXAGONS) = T at *
  by_cases hlt : toU16 s.g_current_hex < T
  · obtain ⟨s1, hrun, hframe, htrace, hhexs⟩ :=
      color_loop_spec T hT (T - toU16 s.g_current_hex) 65537 (toU16 s.g_current_hex) s
        (by omega) (by omega)
    have hcur : s1.g_current_hex = s.g_current_hex := by rw [hframe]
    have hw : wrap16 (T : Int) = T := wrap16_eq _ (by omega) (by omega)
    refine ⟨{ s1 with g_current_hex := wrap16 T }, ?_, ?_, ?_, ?_, ?_, ?_⟩
    · unfold next_color_update_animation
      rw [hTdef, hrun]
      simp only []
      by_cases hne : (T : Int) ≠ s1.g_current_hex
      · rw [if_pos hne]
      · rw [if_neg hne]
        have : (T : Int) = s1.g_current_hex := by
          by_contra h; exact hne h
        rw [hw, this]
    · rw [hframe]
    · exact htrace
    · intro j; exact hhexs j
    · intro _; exact hw
    · intro h; exact absurd hlt h
  · have hexit := color_loop_exit T 65536 (toU16 s.g_current_hex) s (by omega)
    have hrun : next_color_update_animation s t = some
        (if ((toU16 s.g_current_hex : Nat) : Int) ≠ s.g_current_hex then
          { s with g_current_hex := wrap16 (toU16 s.g_current_hex) } else s) := by
      unfold next_color_update_animation
      rw [hTdef, hexit]
    have h0 : T - toU16 s.g_current_hex = 0 := by omega
    by_cases hne : ((toU16 s.g_current_hex : Nat) : Int) ≠ s.g_current_hex
    · rw [if_pos hne] at hrun
      refine ⟨_, hrun, rfl, by rw [h0]; simp [sweep_calls], ?_, ?_, ?_⟩
      · intro j; rw [if_neg (by omega)]
      · intro h; exact absurd h hlt
      · intro _ h1 h2
        show wrap16 (toU16 s.g_current_hex) = s.g_current_hex
        unfold wrap16 toU16; omega
    · rw [if_neg hne] at hrun
      refine ⟨_, hrun, rfl, by rw [h0]; simp [sweep_calls], ?_, ?_, ?_⟩
      · intro j; rw [if_neg (by omega)]
      · intro h; exact absurd h hlt
      · intro _ _ _; rfl

theorem set_color_calls_sweep (col : GColor) (lo n i : Nat) :
    set_color_calls i (sweep_calls col lo n) = if lo ≤ i ∧ i < lo + n then 1 else 0 := by
  induction n with
  | zero =>
    rw [if_neg (by omega)]
    rfl
  | succ n ih =>
    unfold set_color_calls at ih ⊢
    rw [sweep_calls, List.countP_cons, ih]
    simp only [is_set_color, beq_iff_eq]
    split_ifs <;> omega

theorem set_color_calls_append (i : Nat) (a b : List Call) :
    set_color_calls i (a ++ b) = set_color_calls i a + set_color_calls i b := by
  simp [set_color_calls]

theorem filter_lt_length (T : Nat) (hT : T ≤ 18) :
    ((List.range NB_HEXAGONS).filter (fun i => decide (i < T))).length = T := by
  unfold NB_HEXAGONS
  interval_cases T <;> rfl

theorem toU16_natCast (c : Nat) (hc : c ≤ 18) : toU16 (c : Int) = c := by
  unfold toU16; omega

/-- C1, as stated, fails: just after start, `next_color_update_animation(3640)` has set the
colour of one tile, while `floor(3640 * 18 / 65535) = 0`. -/
theorem C1_counterexample :
    (next_color_update_animation (next_color_animation_started loaded) 3640).map
        (fun s' => tiles_set (next_color_animation_started loaded).trace s'.trace) = some 1 ∧
    3640 * 18 / 65535 = 0 ∧
    (next_color_update_animation (next_color_animation_started loaded) 3640).map
        (fun s' => tiles_set (next_color_animation_started loaded).trace s'.trace)
      ≠ some (3640 * 18 / 65535) := by
  decide

/-- C1 (amended): for every `t` in `0..65535`, with the cursor at 0 (just after start),
`next_color_update_animation(t)` returns and the number of tiles whose fill colour it has set
is `t / (65535 / 18) = t / 3640` (integer divisions); this is `floor(t * 18 / 65535)` or one
more. -/
theorem C1_update_target (s : Driver) (t : Nat) (ht : t ≤ 65535) :
    ∃ s', next_color_update_animation (next_color_animation_started s) t = some s' ∧
      tiles_set (next_color_animation_started s).trace s'.trace
        = t / (ANIMATION_NORMALIZED_MAX / NB_HEXAGONS) ∧
      t / (ANIMATION_NORMALIZED_MAX / NB_HEXAGONS) = t / 3640 ∧
      t * 18 / 65535 ≤ t / 3640 ∧ t / 3640 ≤ t * 18 / 65535 + 1 := by
  obtain ⟨s', hrun, -, htrace, -, -, -⟩ := update_spec (next_color_animation_started s) t ht
  have hT := target_le t ht
  have h0 : toU16 (next_color_animation_started s).g_current_hex = 0 := by
    simp [next_color_animation_started, toU16]
  rw [h0] at htrace
  refine ⟨s', hrun, ?_, ?_, ?_, ?_⟩
  · rw [htrace]
    unfold tiles_set
    rw [List.filter_congr (q := fun i => decide (i < t / (ANIMATION_NORMALIZED_MAX / NB_HEXAGONS)))]
    · exact filter_lt_length _ hT
    · intro i _
      rw [set_color_calls_append, set_color_calls_sweep]
      by_cases h : i < t / (ANIMATION_NORMALIZED_MAX / NB_HEXAGONS)
      · simp [h]
      · simp [h]
  · unfold ANIMATION_NORMALIZED_MAX NB_HEXAGONS; rfl
  · omega
  · omega

/-- Witness for C1: the theorem applied at a concrete input. -/
theorem C1_update_target_witness :
    ∃ s', next_color_update_animation (next_color_animation_started loaded) 3640 = some s' ∧
      tiles_set (next_color_animation_started loaded).trace s'.trace = 1 := by
  obtain ⟨s', h1, h2, -⟩ := C1_update_target loaded 3640 (by decide)
  exact ⟨s', h1, h2.trans (by decide)⟩

/-- C2: for every cursor `c` in `0..18`, every `color_index` in `0..5` and every `t` in
`0..65535`, with target `T = t / (65535 / 18)`, `next_color_update_animation(t)` returns;
it sets the fill colour of exactly the tiles `i` with `c ≤ i < T` and `i < 18`, once each, to
the palette colour of the current `color_index`; every other tile, `color_index` and every
other variable are unchanged; the cursor ends at `T` when `T > c` and at `c` otherwise, so it
never decreases.  Read back: a tile in that range then has fill colour
`next_color color_index`, is marked dirty and is otherwise as before; a tile outside it is
as before, fill colour included. -/
theorem C2_update_postcondition (s : Driver) (t : Nat)
    (hc0 : 0 ≤ s.g_current_hex) (hc18 : s.g_current_hex ≤ 18)
    (hi0 : 0 ≤ s.color_index) (hi5 : s.color_index ≤ 5) (ht : t ≤ 65535) :
    ∃ s', next_color_update_animation s t = some s' ∧
      (∀ i : Nat, s'.hexs[i]? =
        if s.g_current_hex ≤ i ∧ i < t / (ANIMATION_NORMALIZED_MAX / NB_HEXAGONS) ∧ i < 18 then
          (s.hexs[i]?).map (fun h => hexagon_set_color h (next_color s.color_index))
        else s.hexs[i]?) ∧
      (∀ i : Nat, set_color_calls i s'.trace = set_color_calls i s.trace +
        if s.g_current_hex ≤ i ∧ i < t / (ANIMATION_NORMALIZED_MAX / NB_HEXAGONS) ∧ i < 18
        then 1 else 0) ∧
      s'.trace = sweep_calls (next_color s.color_index) s.g_current_hex.toNat
          (t / (ANIMATION_NORMALIZED_MAX / NB_HEXAGONS) - s.g_current_hex.toNat) ++ s.trace ∧
      palette[s.color_index.toNat]? = some (next_color s.color_index) ∧
      s'.color_index = s.color_index ∧
      s' = { s with hexs := s'.hexs, trace := s'.trace, g_current_hex := s'.g_current_hex } ∧
      s'.g_current_hex =
        (if s.g_current_hex < ((t / (ANIMATION_NORMALIZED_MAX / NB_HEXAGONS) : Nat) : Int)
         then ((t / (ANIMATION_NORMALIZED_MAX / NB_HEXAGONS) : Nat) : Int)
         else s.g_current_hex) ∧
      s.g_current_hex ≤ s'.g_current_hex ∧
      (∀ (i : Nat) (h : t_hexagon), s.hexs[i]? = some h →
        (s.g_current_hex ≤ i ∧ i < t / (ANIMATION_NORMALIZED_MAX / NB_HEXAGONS) ∧ i < 18 →
          ∃ h1, s'.hexs[i]? = some h1 ∧
            hexagon_get_color h1 = next_color s.color_index ∧
            h1 = { h with layer :=
                    { data := { h.layer.data with color := next_color s.color_index },
                      dirty := true } }) ∧
        (¬ (s.g_current_hex ≤ i ∧ i < t / (ANIMATION_NORMALIZED_MAX / NB_HEXAGONS) ∧ i < 18) →
          s'.hexs[i]? = some h ∧
          (s'.hexs[i]?).map hexagon_get_color = some (hexagon_get_color h))) := by
  obtain ⟨s', hrun, hframe, htrace, hhexs, hcur1, hcur2⟩ := update_spec s t ht
  have hT := target_le t ht
  generalize hTdef : t / (ANIMATION_NORMALIZED_MAX / NB_HEXAGONS) = T at *
  obtain ⟨c, hc⟩ : ∃ c : Nat, s.g_current_hex = (c : Int) := ⟨s.g_current_hex.toNat, by omega⟩
  have hcle : c ≤ 18 := by omega
  rw [hc, toU16_natCast c hcle] at htrace hhexs hcur1 hcur2
  have hcur : s'.g_current_hex = if (c : Int) < (T : Int) then (T : Int) else (c : Int) := by
    by_cases hlt : c < T
    · rw [hcur1 hlt, if_pos (by omega)]
    · rw [hcur2 hlt (by omega) (by omega), if_neg (by omega)]
  refine ⟨s', hrun, ?_, ?_, ?_, ?_, ?_, hframe, ?_, ?_, ?_⟩
  rotate_right
  · intro i h hi
    constructor
    · intro hin
      refine ⟨hexagon_set_color h (next_color s.color_index), ?_, rfl, rfl⟩
      rw [hhexs i, if_pos (by omega), hi]
      rfl
    · intro hout
      have he : s'.hexs[i]? = some h := by
        rw [hhexs i, if_neg (by omega), hi]
      exact ⟨he, by rw [he]; rfl⟩
  · intro i
    rw [hhexs i, hc]
    by_cases h : c ≤ i ∧ i < T
    · rw [if_pos h, if_pos (by omega)]
    · rw [if_neg h, if_neg (by omega)]
  · intro i
    rw [htrace, set_color_calls_append, set_color_calls_sweep, hc, Nat.add_comm]
    by_cases h : c ≤ i ∧ i < T
    · rw [if_pos (by omega), if_pos (by omega)]
    · rw [if_neg (by omega), if_neg (by omega)]
  · rw [htrace, hc]; rfl
  · obtain ⟨k, hk⟩ : ∃ k : Nat, s.color_index = (k : Int) := ⟨s.color_index.toNat, by omega⟩
    rw [hk]
    have hk5 : k ≤ 5 := by omega
    interval_cases k <;> rfl
  · rw [hframe]
  · rw [hcur, hc]
  · rw [hcur, hc]; split_ifs <;> omega

/-- Witness for C2: the theorem applied at a concrete input; after the update with
`t = 7281` tile 1 is Green and tile 2 still has the initial Black. -/
theorem C2_update_postcondition_witness :
    ∃ s', next_color_update_animation (next_color_animation_started loaded) 7281 = some s' ∧
      s'.g_current_hex = 2 ∧ s'.color_index = 0 ∧
      (s'.hexs[1]?).map hexagon_get_color = some GColor.Green ∧
      (s'.hexs[2]?).map hexagon_get_color = some GColor.Black := by
  obtain ⟨s', h1, -, -, -, -, h2, -, h3, -, h4⟩ :=
    C2_update_postcondition (next_color_animation_started loaded) 7281
      (by decide) (by decide) (by decide) (by decide) (by decide)
  refine ⟨s', h1, h3.trans (by decide), h2.trans (by decide), ?_, ?_⟩
  · cases hh : (next_color_animation_started loaded).hexs[1]? with
    | none => exact absurd hh (by decide)
    | some h =>
      obtain ⟨k, hk1, hk2, -⟩ := (h4 1 h hh).1 (by decide)
      rw [hk1, Option.map_some', hk2]
      decide
  · cases hh : (next_color_animation_started loaded).hexs[2]? with
    | none => exact absurd hh (by decide)
    | some h =>
      have hb : ((next_color_animation_started loaded).hexs[2]?).map hexagon_get_color
          = some GColor.Black := by decide
      rw [hh, Option.map_some'] at hb
      rw [((h4 2 h hh).2 (by decide)).2]
      exact hb

theorem color_loop_frame (T : Nat) : ∀ (fuel i : Nat) (s : Driver) (r : Nat × Driver),
    color_loop T fuel i s = some r →
      r.2.color_index = s.color_index ∧
      r.2.g_display_legend_animation = s.g_display_legend_animation ∧
      legend_calls r.2.trace = legend_calls s.trace ∧
      legend_animations r.2.trace = legend_animations s.trace := by
  intro fuel
  induction fuel with
  | zero => intro i s r h; simp [color_loop] at h
  | succ f ih =>
    intro i s r h
    rw [color_loop] at h
    split_ifs at h with hlt
    · obtain ⟨h1, h2, h3, h4⟩ := ih _ _ _ h
      have hc : (color_hexagon s i).color_index = s.color_index ∧
          (color_hexagon s i).g_display_legend_animation = s.g_display_legend_animation ∧
          legend_calls (color_hexagon s i).trace = legend_calls s.trace ∧
          legend_animations (color_hexagon s i).trace = legend_animations s.trace := by
        unfold color_hexagon
        split_ifs
        · simp [legend_calls, legend_animations, List.countP_cons, is_display_legend,
            is_legend_schedule]
        · exact ⟨rfl, rfl, rfl, rfl⟩
      exact ⟨h1.trans hc.1, h2.trans hc.2.1, h3.trans hc.2.2.1, h4.trans hc.2.2.2⟩
    · cases h
      exact ⟨rfl, rfl, rfl, rfl⟩

theorem update_frame (s s' : Driver) (t : Nat) (h : next_color_update_animation s t = some s') :
    s'.color_index = s.color_index ∧
    s'.g_display_legend_animation = s.g_display_legend_animation ∧
    legend_calls s'.trace = legend_calls s.trace ∧
    legend_animations s'.trace = legend_animations s.trace := by
  unfold next_color_update_animation at h
  split at h
  · cases h
  · rename_i i s1 hloop
    have hf := color_loop_frame _ _ _ _ _ hloop
    simp only [Option.some.injEq] at h
    subst h
    split_ifs
    · exact hf
    · exact hf

theorem update_time_frame (s : Driver) (clk : HostClock) :
    (update_time s clk).color_index = s.color_index ∧
    (update_time s clk).g_display_legend_animation = s.g_display_legend_animation ∧
    (update_time s clk).g_current_hex = s.g_current_hex ∧
    legend_calls (update_time s clk).trace = legend_calls s.trace ∧
    legend_animations (update_time s clk).trace = legend_animations s.trace := by
  simp [update_time, legend_calls, legend_animations, List.countP_cons, is_display_legend,
    is_legend_schedule]

theorem display_next_color_frame (s : Driver) :
    (display_next_color s).color_index = s.color_index ∧
    (display_next_color s).g_display_legend_animation = s.g_display_legend_animation ∧
    legend_calls (display_next_color s).trace = legend_calls s.trace ∧
    legend_animations (display_next_color s).trace = legend_animations s.trace := by
  unfold display_next_color
  cases h : s.g_next_color_animation <;>
    simp [record, h, animation_create_and_schedule, legend_calls, legend_animations,
      List.countP_cons, is_display_legend, is_legend_schedule]

theorem display_legend_effect (s : Driver) :
    (display_legend s).color_index = s.color_index ∧
    (display_legend s).g_display_legend_animation ≠ none ∧
    legend_calls (display_legend s).trace = legend_calls s.trace + 1 ∧
    legend_animations (display_legend s).trace = legend_animations s.trace + 1 := by
  simp [display_legend, record, animation_create_and_schedule, legend_calls, legend_animations,
    List.countP_cons, is_display_legend, is_legend_schedule]

theorem stopped_eq (s : Driver) (f : Bool) (clk : HostClock) :
    ∃ x : Driver,
      next_color_animation_stopped s f clk =
        (if x.g_display_legend_animation = none then display_legend x else x) ∧
      x.g_display_legend_animation = s.g_display_legend_animation ∧
      x.color_index =
        (if wrap16 (s.color_index + 1) > 5 then 0 else wrap16 (s.color_index + 1)) ∧
      legend_calls x.trace = legend_calls s.trace ∧
      legend_animations x.trace = legend_animations s.trace := by
  have hu := update_time_frame { s with g_current_hex := 0 } clk
  refine ⟨{ update_time { s with g_current_hex := 0 } clk with
      color_index :=
        if wrap16 ((update_time { s with g_current_hex := 0 } clk).color_index + 1) > 5 then 0
        else wrap16 ((update_time { s with g_current_hex := 0 } clk).color_index + 1) },
    rfl, hu.2.1, ?_, hu.2.2.2.1, hu.2.2.2.2⟩
  show (if wrap16 ((update_time { s with g_current_hex := 0 } clk).color_index + 1) > 5 then 0
    else wrap16 ((update_time { s with g_current_hex := 0 } clk).color_index + 1)) = _
  rw [hu.1]

theorem stopped_color_index (s : Driver) (f : Bool) (clk : HostClock) :
    (next_color_animation_stopped s f clk).color_index =
      (if wrap16 (s.color_index + 1) > 5 then 0 else wrap16 (s.color_index + 1)) := by
  obtain ⟨x, hx, -, hc, -, -⟩ := stopped_eq s f clk
  rw [hx]
  by_cases h : x.g_display_legend_animation = none
  · rw [if_pos h, (display_legend_effect x).1, hc]
  · rw [if_neg h, hc]

theorem stopped_legend (s : Driver) (f : Bool) (clk : HostClock) :
    (s.g_display_legend_animation = none →
      legend_calls (next_color_animation_stopped s f clk).trace = legend_calls s.trace + 1 ∧
      legend_animations (next_color_animation_stopped s f clk).trace
        = legend_animations s.trace + 1) ∧
    (s.g_display_legend_animation ≠ none →
      legend_calls (next_color_animation_stopped s f clk).trace = legend_calls s.trace ∧
      legend_animations (next_color_animation_stopped s f clk).trace
        = legend_animations s.trace) ∧
    (next_color_animation_stopped s f clk).g_display_legend_animation ≠ none := by
  obtain ⟨x, hx, hg, -, h1, h2⟩ := stopped_eq s f clk
  rw [hx]
  refine ⟨?_, ?_, ?_⟩
  · intro hn
    rw [if_pos (hg.trans hn), (display_legend_effect x).2.2.1, (display_legend_effect x).2.2.2,
      h1, h2]
    exact ⟨rfl, rfl⟩
  · intro hn
    rw [if_neg (by rw [hg]; exact hn)]
    exact ⟨h1, h2⟩
  · split_ifs with h
    · exact (display_legend_effect x).2.1
    · exact h

theorem legend_show_hide_frame (s : Driver) (f : Bool) :
    (legend_animation_started s).color_index = s.color_index ∧
    (legend_animation_started s).g_display_legend_animation = s.g_display_legend_animation ∧
    (legend_animation_started s).trace = s.trace ∧
    (legend_animation_stopped s f).color_index = s.color_index ∧
    (legend_animation_stopped s f).g_display_legend_animation = s.g_display_legend_animation ∧
    (legend_animation_stopped s f).trace = s.trace := by
  simp only [legend_animation_started, legend_animation_stopped, and_self]

theorem tick_frame (s : Driver) (u : Nat) (clk : HostClock) :
    (tick_handler s u clk).color_index = s.color_index ∧
    (tick_handler s u clk).g_display_legend_animation = s.g_display_legend_animation ∧
    legend_calls (tick_handler s u clk).trace = legend_calls s.trace ∧
    legend_animations (tick_handler s u clk).trace = legend_animations s.trace := by
  have hu := update_time_frame s clk
  have hd := display_next_color_frame (update_time s clk)
  unfold tick_handler
  simp only []
  split_ifs
  · exact ⟨hd.1.trans hu.1, hd.2.1.trans hu.2.1, hd.2.2.1.trans hu.2.2.2.1,
      hd.2.2.2.trans hu.2.2.2.2⟩
  · exact ⟨hu.1, hu.2.1, hu.2.2.2.1, hu.2.2.2.2⟩

/-- Effect of one event on `color_index`, the legend handle and the legend counters. -/
theorem step_frame (s s1 : Driver) (e : Event) (h : step s e = some s1) :
    (is_sweep_stopped e = false →
      s1.color_index = s.color_index ∧
      s1.g_display_legend_animation = s.g_display_legend_animation ∧
      legend_calls s1.trace = legend_calls s.trace ∧
      legend_animations s1.trace = legend_animations s.trace) ∧
    (is_sweep_stopped e = true →
      s1.color_index =
        (if wrap16 (s.color_index + 1) > 5 then 0 else wrap16 (s.color_index + 1)) ∧
      s1.g_display_legend_animation ≠ none ∧
      (s.g_display_legend_animation = none →
        legend_calls s1.trace = legend_calls s.trace + 1 ∧
        legend_animations s1.trace = legend_animations s.trace + 1) ∧
      (s.g_display_legend_animation ≠ none →
        legend_calls s1.trace = legend_calls s.trace ∧
        legend_animations s1.trace = legend_animations s.trace)) := by
  cases e with
  | tick u clk =>
    simp only [step, Option.some.injEq] at h; subst h
    exact ⟨fun _ => tick_frame s u clk, fun h => by simp [is_sweep_stopped] at h⟩
  | sweep_started =>
    simp only [step, Option.some.injEq] at h; subst h
    exact ⟨fun _ => ⟨rfl, rfl, rfl, rfl⟩, fun h => by simp [is_sweep_stopped] at h⟩
  | sweep_update t =>
    simp only [step] at h
    exact ⟨fun _ => update_frame s s1 t h, fun h => by simp [is_sweep_stopped] at h⟩
  | sweep_stopped f clk =>
    simp only [step, Option.some.injEq] at h; subst h
    have hl := stopped_legend s f clk
    exact ⟨fun h => by simp [is_sweep_stopped] at h,
      fun _ => ⟨stopped_color_index s f clk, hl.2.2, hl.1, hl.2.1⟩⟩
  | legend_started =>
    simp only [step, Option.some.injEq] at h; subst h
    have hl := legend_show_hide_frame s true
    exact ⟨fun _ => ⟨hl.1, hl.2.1, by rw [hl.2.2.1], by rw [hl.2.2.1]⟩,
      fun h => by simp [is_sweep_stopped] at h⟩
  | legend_update t =>
    simp only [step, Option.some.injEq] at h; subst h
    exact ⟨fun _ => ⟨rfl, rfl, rfl, rfl⟩, fun h => by simp [is_sweep_stopped] at h⟩
  | legend_stopped f =>
    simp only [step, Option.some.injEq] at h; subst h
    have hl := legend_show_hide_frame s f
    exact ⟨fun _ => ⟨hl.2.2.2.1, hl.2.2.2.2.1, by rw [hl.2.2.2.2.2], by rw [hl.2.2.2.2.2]⟩,
      fun h => by simp [is_sweep_stopped] at h⟩

theorem step_total (s : Driver) (e : Event) (h : in_contract e) : ∃ s1, step s e = some s1 := by
  cases e with
  | sweep_update t =>
    obtain ⟨s1, h1, -⟩ := update_spec s t h
    exact ⟨s1, h1⟩
  | tick u clk => exact ⟨_, rfl⟩
  | sweep_started => exact ⟨_, rfl⟩
  | sweep_stopped f clk => exact ⟨_, rfl⟩
  | legend_started => exact ⟨_, rfl⟩
  | legend_update t => exact ⟨_, rfl⟩
  | legend_stopped f => exact ⟨_, rfl⟩

theorem run_total : ∀ (evs : List Event) (s : Driver), (∀ e ∈ evs, in_contract e) →
    ∃ s', run s evs = some s' := by
  intro evs
  induction evs with
  | nil => intro s _; exact ⟨s, rfl⟩
  | cons e es ih =>
    intro s h
    obtain ⟨s1, h1⟩ := step_total s e (h e (List.mem_cons_self _ _))
    obtain ⟨s', h'⟩ := ih s1 (fun x hx => h x (List.mem_cons_of_mem _ hx))
    exact ⟨s', by simp only [run, h1, Option.bind_some]; exact h'⟩

theorem run_cons (s : Driver) (e : Event) (es : List Event) (s' : Driver)
    (h : run s (e :: es) = some s') : ∃ s1, step s e = some s1 ∧ run s1 es = some s' := by
  simp only [run] at h
  cases hs : step s e with
  | none => rw [hs] at h; simp at h
  | some s1 => rw [hs] at h; exact ⟨s1, rfl, by simpa using h⟩

theorem stops_cons (e : Event) (es : List Event) :
    stops (e :: es) = stops es + if is_sweep_stopped e = true then 1 else 0 := by
  simp [stops, List.countP_cons]

theorem run_color_index : ∀ (evs : List Event) (s s' : Driver),
    0 ≤ s.color_index → s.color_index ≤ 5 → run s evs = some s' →
    s'.color_index = (s.color_index + (stops evs : Int)) % 6 := by
  intro evs
  induction evs with
  | nil =>
    intro s s' h0 h5 h
    simp only [run, Option.some.injEq] at h; subst h
    simp only [stops, List.countP_nil]
    omega
  | cons e es ih =>
    intro s s' h0 h5 h
    obtain ⟨s1, h1, h2⟩ := run_cons s e es s' h
    have hf := step_frame s s1 e h1
    rw [stops_cons]
    cases hst : is_sweep_stopped e with
    | false =>
      have hc := (hf.1 hst).1
      rw [ih s1 s' (by omega) (by omega) h2, hc]
      simp
    | true =>
      have hc := (hf.2 hst).1
      have hw : wrap16 (s.color_index + 1) = s.color_index + 1 :=
        wrap16_eq _ (by omega) (by omega)
      rw [hw] at hc
      have hc' : s1.color_index = (s.color_index + 1) % 6 := by
        rw [hc]; split_ifs <;> omega
      rw [ih s1 s' (by omega) (by omega) h2, hc']
      simp only [if_true]
      push_cast
      omega

theorem run_legend : ∀ (evs : List Event) (s s' : Driver), run s evs = some s' →
    (s.g_display_legend_animation = none →
      legend_calls s'.trace = legend_calls s.trace + min 1 (stops evs) ∧
      legend_animations s'.trace = legend_animations s.trace + min 1 (stops evs) ∧
      (s'.g_display_legend_animation = none ↔ stops evs = 0)) ∧
    (s.g_display_legend_animation ≠ none →
      legend_calls s'.trace = legend_calls s.trace ∧
      legend_animations s'.trace = legend_animations s.trace ∧
      s'.g_display_legend_animation ≠ none) := by
  intro evs
  induction evs with
  | nil =>
    intro s s' h
    simp only [run, Option.some.injEq] at h; subst h
    simp [stops]
  | cons e es ih =>
    intro s s' h
    obtain ⟨s1, h1, h2⟩ := run_cons s e es s' h
    have hf := step_frame s s1 e h1
    have hi := ih s1 s' h2
    rw [stops_cons]
    cases hst : is_sweep_stopped e with
    | false =>
      obtain ⟨-, hg, hl, ha⟩ := hf.1 hst
      simp only [Bool.false_eq_true, if_false, Nat.add_zero]
      constructor
      · intro hn
        obtain ⟨i1, i2, i3⟩ := hi.1 (hg.trans hn)
        exact ⟨by rw [i1, hl], by rw [i2, ha], i3⟩
      · intro hn
        obtain ⟨i1, i2, i3⟩ := hi.2 (by rw [hg]; exact hn)
        exact ⟨by rw [i1, hl], by rw [i2, ha], i3⟩
    | true =>
      obtain ⟨-, hg, hl1, hl2⟩ := hf.2 hst
      obtain ⟨i1, i2, i3⟩ := hi.2 hg
      simp only [if_true]
      constructor
      · intro hn
        obtain ⟨j1, j2⟩ := hl1 hn
        refine ⟨by rw [i1, j1]; omega, by rw [i2, j2]; omega, ?_⟩
        constructor
        · intro h0; exact absurd h0 i3
        · intro h0; omega
      · intro hn
        obtain ⟨j1, j2⟩ := hl2 hn
        exact ⟨by rw [i1, j1], by rw [i2, j2], i3⟩

theorem load_legend (rand : Nat) (clk : HostClock) :
    (main_window_load boot rand clk).g_display_legend_animation = none ∧
    legend_calls (main_window_load boot rand clk).trace = 0 ∧
    legend_animations (main_window_load boot rand clk).trace = 0 := by
  unfold main_window_load
  simp only []
  refine ⟨?_, ?_, ?_⟩
  · rw [(display_next_color_frame _).2.1, (update_time_frame _ _).2.1]; rfl
  · rw [(display_next_color_frame _).2.2.1, (update_time_frame _ _).2.2.2.1]; rfl
  · rw [(display_next_color_frame _).2.2.2, (update_time_frame _ _).2.2.2.2]; rfl

/-- C4: for `color_index` in `0..5`, `next_color_animation_stopped` sets it to
`(color_index + 1) mod 6` whatever `finished` is; `next_color_animation_started` and
`next_color_update_animation` leave it unchanged; hence after any sequence of events it is
the start value plus the number of stop events, mod 6 (however many updates fire in
between), and after six stops it is back at its start value. -/
theorem C4_color_index_cycle (s : Driver) (h0 : 0 ≤ s.color_index) (h5 : s.color_index ≤ 5) :
    (∀ (finished : Bool) (clk : HostClock),
      (next_color_animation_stopped s finished clk).color_index = (s.color_index + 1) % 6) ∧
    (next_color_animation_started s).color_index = s.color_index ∧
    (∀ t s', next_color_update_animation s t = some s' → s'.color_index = s.color_index) ∧
    (∀ t, t ≤ 65535 → ∃ s', next_color_update_animation s t = some s') ∧
    (∀ evs, (∀ e ∈ evs, in_contract e) → ∃ s', run s evs = some s') ∧
    (∀ evs s', run s evs = some s' →
      s'.color_index = (s.color_index + (stops evs : Int)) % 6) ∧
    (∀ evs s', run s evs = some s' → stops evs = 6 → s'.color_index = s.color_index) := by
  refine ⟨?_, rfl, ?_, ?_, ?_, ?_, ?_⟩
  · intro f clk
    rw [stopped_color_index, wrap16_eq _ (by omega) (by omega)]
    split_ifs <;> omega
  · intro t s' h; exact (update_frame s s' t h).1
  · intro t ht
    obtain ⟨s', h, -⟩ := update_spec s t ht
    exact ⟨s', h⟩
  · intro evs h; exact run_total evs s h
  · intro evs s' h; exact run_color_index evs s s' h0 h5 h
  · intro evs s' h h6
    rw [run_color_index evs s s' h0 h5 h, h6]
    omega

/-- Witness for C4: the theorem applied at a concrete input. -/
theorem C4_color_index_cycle_witness :
    ∃ s', run loaded sample_events = some s' ∧ s'.color_index = loaded.color_index := by
  have h := C4_color_index_cycle loaded (by decide) (by decide)
  obtain ⟨s', hs⟩ := h.2.2.2.2.1 sample_events (by
    intro e he
    simp only [sample_events, List.mem_cons, List.mem_singleton, List.mem_nil_iff, or_false] at he
    rcases he with h | h | h | h | h | h | h | h | h | h | h | h | h | h <;> subst h <;>
      simp [in_contract, ANIMATION_NORMALIZED_MAX])
  exact ⟨s', hs, h.2.2.2.2.2.2 sample_events s' hs (by decide)⟩

/-- C9, as stated, fails: on a tile with a label, the legend attached by
`hexagon_set_legend` is not hidden; the six labelled tiles of the loaded window show their
legend at once. -/
theorem C9_counterexample :
    (hexagon_set_legend labelled_tile "mon").legend.map (fun l => l.hidden) = some false ∧
    (hexagon_set_legend labelled_tile "mon").legend.map (fun l => l.hidden) ≠ some true ∧
    labelled_tile.text ≠ none ∧
    ((loaded.hexs[HEX_MONTH]?).bind (fun h => h.legend)).map (fun l => l.hidden) = some false := by
  decide

/-- C9 (amended): for every tile that has a label attached, the legend region attached by
`hexagon_set_legend(h, text)` is visible (not hidden); `hexagon_show_legend`,
`hexagon_set_text` and `hexagon_set_color` leave it so; `hexagon_hide_legend` hides it and a
later `hexagon_show_legend` shows it again. -/
theorem C9_legend_visibility (h : t_hexagon) (text : String) (hl : h.text ≠ none) :
    ∃ l : TextLayer, (hexagon_set_legend h text).legend = some l ∧
      l.hidden = false ∧ l.text = text ∧
      (hexagon_show_legend (hexagon_set_legend h text)).legend = some l ∧
      (∀ t, (hexagon_set_text (hexagon_set_legend h text) t).legend = some l) ∧
      (∀ c, (hexagon_set_color (hexagon_set_legend h text) c).legend = some l) ∧
      (hexagon_hide_legend (hexagon_set_legend h text)).legend
        = some { l with hidden := true } ∧
      (hexagon_show_legend (hexagon_hide_legend (hexagon_set_legend h text))).legend
        = some l := by
  cases ht : h.text with
  | none => exact absurd ht hl
  | some lab =>
    refine ⟨{ text := text, text_color := hexagon_get_border_color h, hidden := false },
      ?_, rfl, rfl, ?_, ?_, ?_, ?_, ?_⟩
    · simp [hexagon_set_legend, ht]
    · simp [hexagon_set_legend, hexagon_show_legend, ht]
    · intro t; simp [hexagon_set_legend, hexagon_set_text, ht]
    · intro c; simp [hexagon_set_legend, hexagon_set_color, ht]
    · simp [hexagon_set_legend, hexagon_hide_legend, ht]
    · simp [hexagon_set_legend, hexagon_hide_legend, hexagon_show_legend, ht]

/-- Witness for C9: the theorem applied at a concrete input. -/
theorem C9_legend_visibility_witness :
    ∃ l : TextLayer, (hexagon_set_legend labelled_tile "mon").legend = some l ∧
      l.hidden = false ∧ l.text = "mon" := by
  obtain ⟨l, h1, h2, h3, -⟩ := C9_legend_visibility labelled_tile "mon" (by decide)
  exact ⟨l, h1, h2, h3⟩

/-- C10: from the state left by `main_window_load`, every sequence of host events within the
host's contract runs to completion, and after any sequence that ran, `display_legend` has
been invoked once if a colour-sweep stop event occurred and not at all otherwise; so is the
number of legend-pulse animations scheduled.  The next event invokes `display_legend` exactly
when it is a stop event and no stop event came before. -/
theorem C10_legend_once (rand : Nat) (clk : HostClock) (evs : List Event) :
    ((∀ e ∈ evs, in_contract e) → ∃ s', run (main_window_load boot rand clk) evs = some s') ∧
    (∀ s', run (main_window_load boot rand clk) evs = some s' →
      legend_calls s'.trace = min 1 (stops evs) ∧
      legend_animations s'.trace = min 1 (stops evs) ∧
      (∀ e s2, step s' e = some s2 →
        legend_calls s2.trace = legend_calls s'.trace +
          (if is_sweep_stopped e = true ∧ stops evs = 0 then 1 else 0))) := by
  have hload := load_legend rand clk
  refine ⟨fun h => run_total evs _ h, ?_⟩
  intro s' hrun
  obtain ⟨h1, h2, h3⟩ := (run_legend evs _ s' hrun).1 hload.1
  rw [hload.2.1, Nat.zero_add] at h1
  rw [hload.2.2, Nat.zero_add] at h2
  refine ⟨h1, h2, ?_⟩
  intro e s2 hstep
  have hf := step_frame s' s2 e hstep
  cases hst : is_sweep_stopped e with
  | false =>
    rw [(hf.1 hst).2.2.1]
    simp
  | true =>
    by_cases hz : stops evs = 0
    · rw [((hf.2 hst).2.2.1 (h3.mpr hz)).1, if_pos ⟨rfl, hz⟩]
    · rw [((hf.2 hst).2.2.2 (fun hn => hz (h3.mp hn))).1, if_neg (fun h => hz h.2),
        Nat.add_zero]

/-- Witness for C10: the theorem applied at a concrete input. -/
theorem C10_legend_once_witness :
    ∃ s', run loaded sample_events = some s' ∧ legend_calls s'.trace = 1 ∧
      legend_animations s'.trace = 1 := by
  have h := C10_legend_once 0 sample_clock sample_events
  obtain ⟨s', hs⟩ := h.1 (by
    intro e he
    simp only [sample_events, List.mem_cons, List.mem_singleton, List.mem_nil_iff, or_false] at he
    rcases he with h | h | h | h | h | h | h | h | h | h | h | h | h | h <;> subst h <;>
      simp [in_contract, ANIMATION_NORMALIZED_MAX])
  obtain ⟨h1, h2, -⟩ := h.2 s' hs
  exact ⟨s', hs, h1.trans (by decide), h2.trans (by decide)⟩

/-! ## Painting -/

/-- C13, as stated, fails on the stroke width: a tile created with border width `300` is
stroked with width `(uint8_t) 300 = 44`. -/
theorem C13_counterexample :
    hexagon_update_proc
        (create_hexagon_with_border ⟨0, 0⟩ 26 GColor.Black 22 GColor.Black 300).layer
      ≠ redraw_contract (create_hexagon_with_border ⟨0, 0⟩ 26 GColor.Black 22 GColor.Black 300) ∧
    DrawOp.graphics_context_set_stroke_width 44 ∈ hexagon_update_proc
        (create_hexagon_with_border ⟨0, 0⟩ 26 GColor.Black 22 GColor.Black 300).layer ∧
    DrawOp.graphics_context_set_stroke_width 300 ∈
      redraw_contract (create_hexagon_with_border ⟨0, 0⟩ 26 GColor.Black 22 GColor.Black 300) := by
  decide

/-- C13 (amended): for every tile, `hexagon_update_proc` first sets the fill colour to the
tile's current colour and fills the outer polygon; then, exactly when a border polygon was
constructed, it sets the stroke colour to the border colour, the stroke width to the border
width converted to `uint8_t` (the border width itself when it lies in `0..255`) and strokes
the border polygon.  A tile made by `create_hexagon_with_border` has a border polygon; a tile
made by `create_hexagon` has none and is never stroked, whatever colours are set on it. -/
theorem C13_redraw_contract (h : t_hexagon) :
    hexagon_update_proc h.layer =
      [ DrawOp.graphics_context_set_fill_color h.layer.data.color,
        DrawOp.gpath_draw_filled h.layer.data.path ] ++
      (match h.layer.data.border_path with
       | some border_path =>
         [ DrawOp.graphics_context_set_stroke_color h.layer.data.border_color,
           DrawOp.graphics_context_set_stroke_width (h.layer.data.border_width % 256),
           DrawOp.gpath_draw_outline border_path ]
       | none => []) ∧
    (0 ≤ h.layer.data.border_width → h.layer.data.border_width ≤ 255 →
      hexagon_update_proc h.layer = redraw_contract h) ∧
    (∀ (center : GPoint) (w : Int) (color c1 c2 : GColor),
      hexagon_update_proc
          (hexagon_set_color (hexagon_set_border_color (create_hexagon center w color) c1) c2).layer
        = [ DrawOp.graphics_context_set_fill_color c2,
            DrawOp.gpath_draw_filled (create_hexagonal_path w) ] ∧
      hexagon_update_proc (hexagon_set_border_color (create_hexagon center w color) c1).layer
        = [ DrawOp.graphics_context_set_fill_color color,
            DrawOp.gpath_draw_filled (create_hexagonal_path w) ]) ∧
    (∀ (center : GPoint) (w inner bsize : Int) (color bcolor : GColor),
      ∃ border_path,
        (create_hexagon_with_border center w color inner bcolor bsize).border_points
          = some border_path ∧
        hexagon_update_proc (create_hexagon_with_border center w color inner bcolor bsize).layer
          = [ DrawOp.graphics_context_set_fill_color color,
              DrawOp.gpath_draw_filled (create_hexagonal_path w),
              DrawOp.graphics_context_set_stroke_color bcolor,
              DrawOp.graphics_context_set_stroke_width (bsize % 256),
              DrawOp.gpath_draw_outline border_path ]) := by
  refine ⟨?_, ?_, ?_, ?_⟩
  · cases hb : h.layer.data.border_path <;> simp [hexagon_update_proc, hb, toU8]
  · intro h0 h255
    have hw : h.layer.data.border_width % 256 = h.layer.data.border_width := by omega
    cases hb : h.layer.data.border_path <;>
      simp [hexagon_update_proc, redraw_contract, hb, toU8, hw]
  · intro center w color c1 c2
    exact ⟨rfl, rfl⟩
  · intro center w inner bsize color bcolor
    exact ⟨_, rfl, rfl⟩

/-- Witness for C13: the theorem applied to the month tile of the watchface. -/
theorem C13_redraw_contract_witness :
    hexagon_update_proc labelled_tile.layer = redraw_contract labelled_tile :=
  (C13_redraw_contract labelled_tile).2.1 (by decide) (by decide)

/-- C14: on a tile with no legend attached, `hexagon_show_legend` followed by
`hexagon_hide_legend` (and each of them alone) leaves the tile unchanged; on a tile with no
label attached, `hexagon_set_text` and `hexagon_set_legend` leave the tile unchanged, so an
absent legend stays absent.  The functions are total and have no error result. -/
theorem C14_silent_noops (h : t_hexagon) :
    (h.legend = none →
      hexagon_hide_legend (hexagon_show_legend h) = h ∧
      hexagon_show_legend h = h ∧ hexagon_hide_legend h = h) ∧
    (h.text = none →
      ∀ t : String, hexagon_set_text h t = h ∧ hexagon_set_legend h t = h ∧
        (h.legend = none → (hexagon_set_legend h t).legend = none)) := by
  constructor
  · intro hl
    have hs : hexagon_show_legend h = h := by simp [hexagon_show_legend, hl]
    have hh : hexagon_hide_legend h = h := by simp [hexagon_hide_legend, hl]
    exact ⟨by rw [hs, hh], hs, hh⟩
  · intro ht t
    have h1 : hexagon_set_text h t = h := by simp [hexagon_set_text, ht]
    have h2 : hexagon_set_legend h t = h := by simp [hexagon_set_legend, ht]
    exact ⟨h1, h2, fun hl => by rw [h2]; exact hl⟩

/-- Witness for C14: the theorem applied to a freshly created tile, which has neither a
label nor a legend. -/
theorem C14_silent_noops_witness :
    hexagon_hide_legend (hexagon_show_legend (create_hexagon ⟨0, 0⟩ 26 GColor.Black))
      = create_hexagon ⟨0, 0⟩ 26 GColor.Black ∧
    hexagon_set_legend (create_hexagon ⟨0, 0⟩ 26 GColor.Black) "mon"
      = create_hexagon ⟨0, 0⟩ 26 GColor.Black :=
  ⟨((C14_silent_noops (create_hexagon ⟨0, 0⟩ 26 GColor.Black)).1 rfl).1,
   ((C14_silent_noops (create_hexagon ⟨0, 0⟩ 26 GColor.Black)).2 rfl "mon").2.1⟩

/-! ## Teardown -/

theorem foldl_record (f : Nat → Call) : ∀ (l : List Nat) (s : Driver),
    l.foldl (fun s i => record s (f i)) s = { s with trace := (l.map f).reverse ++ s.trace } := by
  intro l
  induction l with
  | nil => intro s; rfl
  | cons a l ih =>
    intro s
    rw [List.foldl_cons, ih]
    simp [record]

/-- The trace `main_window_unload` leaves, for every state: sixteen `destroy_hexagon`
calls, two `text_layer_destroy` calls, then the guarded `animation_destroy` calls. -/
theorem unload_trace (s : Driver) :
    (main_window_unload s).trace =
      (match s.g_display_legend_animation with
        | some _ =>
          (match s.g_next_color_animation with
            | some a => [Call.animation_destroy a]
            | none => [Call.animation_destroy_null])
        | none => []) ++
      (match s.g_next_color_animation with
        | some a => [Call.animation_destroy a]
        | none => []) ++
      [Call.text_layer_destroy, Call.text_layer_destroy] ++
      ((List.range 16).map Call.destroy_hexagon).reverse ++ s.trace := by
  unfold main_window_unload
  rw [foldl_record]
  cases hn : s.g_next_color_animation <;> cases hl : s.g_display_legend_animation <;>
    simp [record, hn, hl]

theorem count_destroy_hexagon_range (i : Nat) :
    ((List.range 16).map Call.destroy_hexagon).reverse.count (Call.destroy_hexagon i)
      = if i < 16 then 1 else 0 := by
  by_cases h : i < 16
  · rw [if_pos h]
    interval_cases i <;> decide
  · rw [if_neg h]
    apply List.count_eq_zero_of_not_mem
    simp only [List.mem_reverse, List.mem_map, List.mem_range, not_exists, not_and]
    intro x hx he
    cases he
    exact h hx

/-- For every state, `main_window_unload` calls `destroy_hexagon` once on each index below
16 and on no other index. -/
theorem unload_destroy_hexagon_calls (s : Driver) (i : Nat) :
    destroy_hexagon_calls i (main_window_unload s).trace =
      destroy_hexagon_calls i s.trace + if i < 16 then 1 else 0 := by
  unfold destroy_hexagon_calls
  rw [unload_trace, List.count_append, List.count_append, List.count_append, List.count_append,
    count_destroy_hexagon_range]
  have h1 : ∀ l : Option Nat, (match l with
        | some a => [Call.animation_destroy a]
        | none => ([] : List Call)).count (Call.destroy_hexagon i) = 0 := by
    intro l; cases l <;> simp
  have h2 : (match s.g_display_legend_animation with
        | some _ =>
          (match s.g_next_color_animation with
            | some a => [Call.animation_destroy a]
            | none => [Call.animation_destroy_null])
        | none => []).count (Call.destroy_hexagon i) = 0 := by
    cases s.g_display_legend_animation <;> cases s.g_next_color_animation <;> simp
  rw [h1, h2]
  simp
  omega

/-- For every state in which both handles are non-NULL, `main_window_unload` passes the
colour-sweep handle to `animation_destroy` twice and a different legend handle never. -/
theorem unload_animation_destroy_calls (s : Driver) (a b : Nat)
    (ha : s.g_next_color_animation = some a) (hb : s.g_display_legend_animation = some b) :
    animation_destroy_calls a (main_window_unload s).trace
      = animation_destroy_calls a s.trace + 2 ∧
    (b ≠ a → animation_destroy_calls b (main_window_unload s).trace
      = animation_destroy_calls b s.trace) := by
  have hr : ∀ c : Nat,
      ((List.range 16).map Call.destroy_hexagon).reverse.count (Call.animation_destroy c) = 0 := by
    intro c
    apply List.count_eq_zero_of_not_mem
    simp
  unfold animation_destroy_calls
  rw [unload_trace, ha, hb]
  constructor
  · simp [List.count_append, List.count_cons, hr]
  · intro hne
    have hne2 : a ≠ b := fun h => hne h.symm
    simp [List.count_append, List.count_cons, hr, hne2]

/-- C15 (code defect): after `main_window_load` created the 18 tiles, `main_window_unload`
calls `destroy_hexagon` once on each of the tiles 0..15 and never on tiles 16 and 17. -/
theorem C15_unload_leaves_tiles :
    loaded.hexs.length = 18 ∧
    (∀ i, i < 16 → destroy_hexagon_calls i (main_window_unload loaded).trace = 1) ∧
    destroy_hexagon_calls 16 (main_window_unload loaded).trace = 0 ∧
    destroy_hexagon_calls 17 (main_window_unload loaded).trace = 0 := by
  decide

/-- C16 (code defect): after a complete first colour sweep the colour-sweep handle is `0` and
the legend handle is `1`; `main_window_unload` then calls `animation_destroy` twice on handle
`0` and never on handle `1`. -/
theorem C16_unload_double_destroy :
    after_first_sweep.map (fun s =>
        (s.g_next_color_animation, s.g_display_legend_animation,
         animation_destroy_calls 0 (main_window_unload s).trace,
         animation_destroy_calls 1 (main_window_unload s).trace))
      = some (some 0, some 1, 2, 0) := by
  decide

/-! ## Handles and ranges along event sequences -/

theorem update_time_fields (s : Driver) (clk : HostClock) :
    (update_time s clk).trace = Call.update_time :: s.trace ∧
    (update_time s clk).g_next_color_animation = s.g_next_color_animation ∧
    (update_time s clk).animations_created = s.animations_created ∧
    (update_time s clk).g_current_hex = s.g_current_hex ∧
    (update_time s clk).color_index = s.color_index ∧
    (update_time s clk).g_display_legend_animation = s.g_display_legend_animation := by
  simp [update_time]

theorem display_next_color_fields (s : Driver) :
    (display_next_color s).trace = Call.animation_schedule s.animations_created 1500 ::
      Call.animation_create s.animations_created ::
        ((match s.g_next_color_animation with
          | some b => [Call.animation_destroy b]
          | none => []) ++ Call.display_next_color :: s.trace) ∧
    (display_next_color s).g_next_color_animation = some s.animations_created ∧
    (display_next_color s).animations_created = s.animations_created + 1 ∧
    (display_next_color s).g_current_hex = s.g_current_hex ∧
    (display_next_color s).color_index = s.color_index ∧
    (display_next_color s).hexs = s.hexs := by
  unfold display_next_color
  cases h : s.g_next_color_animation <;>
    simp [record, h, animation_create_and_schedule]

theorem display_legend_fields (s : Driver) :
    (display_legend s).trace = Call.animation_schedule s.animations_created 1000 ::
      Call.animation_create s.animations_created :: Call.display_legend :: s.trace ∧
    (display_legend s).g_next_color_animation = s.g_next_color_animation ∧
    (display_legend s).animations_created = s.animations_created + 1 ∧
    (display_legend s).g_current_hex = s.g_current_hex ∧
    (display_legend s).color_index = s.color_index := by
  simp [display_legend, record, animation_create_and_schedule]

theorem tick_fields (s : Driver) (u : Nat) (clk : HostClock) :
    (u &&& MINUTE_UNIT = 0 →
      (tick_handler s u clk).trace = Call.update_time :: s.trace ∧
      (tick_handler s u clk).g_next_color_animation = s.g_next_color_animation ∧
      (tick_handler s u clk).animations_created = s.animations_created) ∧
    (u &&& MINUTE_UNIT ≠ 0 →
      (tick_handler s u clk).trace
        = minute_tick_calls s.g_next_color_animation s.animations_created ++ s.trace ∧
      (tick_handler s u clk).g_next_color_animation = some s.animations_created ∧
      (tick_handler s u clk).animations_created = s.animations_created + 1) ∧
    (tick_handler s u clk).hexs = (update_time s clk).hexs ∧
    (tick_handler s u clk).g_current_hex = s.g_current_hex ∧
    (tick_handler s u clk).color_index = s.color_index := by
  have hu := update_time_fields s clk
  have hd := display_next_color_fields (update_time s clk)
  unfold tick_handler
  simp only []
  by_cases hm : u &&& MINUTE_UNIT ≠ 0
  · rw [if_pos hm]
    refine ⟨fun h => absurd h hm, fun _ => ⟨?_, ?_, ?_⟩, hd.2.2.2.2.2, ?_, ?_⟩
    · rw [hd.1, hu.1, hu.2.1, hu.2.2.1]
      unfold minute_tick_calls
      cases s.g_next_color_animation <;> simp
    · rw [hd.2.1, hu.2.2.1]
    · rw [hd.2.2.1, hu.2.2.1]
    · rw [hd.2.2.2.1, hu.2.2.2.1]
    · rw [hd.2.2.2.2.1, hu.2.2.2.2.1]
  · rw [if_neg hm]
    exact ⟨fun _ => ⟨hu.1, hu.2.1, hu.2.2.1⟩, fun h => absurd h hm, rfl, hu.2.2.2.1,
      hu.2.2.2.2.1⟩

theorem stopped_shape (s : Driver) (f : Bool) (clk : HostClock) :
    ∃ x : Driver,
      next_color_animation_stopped s f clk =
        (if x.g_display_legend_animation = none then display_legend x else x) ∧
      x.trace = Call.update_time :: s.trace ∧
      x.g_next_color_animation = s.g_next_color_animation ∧
      x.animations_created = s.animations_created ∧
      x.g_current_hex = 0 := by
  have hu := update_time_fields { s with g_current_hex := 0 } clk
  exact ⟨{ update_time { s with g_current_hex := 0 } clk with
      color_index :=
        if wrap16 ((update_time { s with g_current_hex := 0 } clk).color_index + 1) > 5 then 0
        else wrap16 ((update_time { s with g_current_hex := 0 } clk).color_index + 1) },
    rfl, hu.1, hu.2.1, hu.2.2.1, hu.2.2.2.1⟩

theorem stopped_fields (s : Driver) (f : Bool) (clk : HostClock) :
    ∃ new : List Call,
      (next_color_animation_stopped s f clk).trace = new ++ s.trace ∧
      (∀ c ∈ new, c = Call.update_time ∨ c = Call.display_legend ∨
        (∃ a, c = Call.animation_create a) ∨ (∃ a, c = Call.animation_schedule a 1000)) ∧
      (next_color_animation_stopped s f clk).g_next_color_animation
        = s.g_next_color_animation ∧
      s.animations_created ≤ (next_color_animation_stopped s f clk).animations_created ∧
      (next_color_animation_stopped s f clk).g_current_hex = 0 := by
  obtain ⟨x, hx, htr, hheld, hn, hcur⟩ := stopped_shape s f clk
  rw [hx]
  by_cases hl : x.g_display_legend_animation = none
  · rw [if_pos hl]
    have hd := display_legend_fields x
    refine ⟨[Call.animation_schedule x.animations_created 1000,
        Call.animation_create x.animations_created, Call.display_legend, Call.update_time],
      ?_, ?_, ?_, ?_, ?_⟩
    · rw [hd.1, htr]; rfl
    · intro c hc
      simp only [List.mem_cons, List.mem_singleton, List.mem_nil_iff, or_false] at hc
      rcases hc with h | h | h | h
      · exact Or.inr (Or.inr (Or.inr ⟨_, h⟩))
      · exact Or.inr (Or.inr (Or.inl ⟨_, h⟩))
      · exact Or.inr (Or.inl h)
      · exact Or.inl h
    · rw [hd.2.1, hheld]
    · rw [hd.2.2.1, hn]; omega
    · rw [hd.2.2.2.1, hcur]
  · rw [if_neg hl]
    refine ⟨[Call.update_time], ?_, ?_, hheld, ?_, hcur⟩
    · rw [htr]; rfl
    · intro c hc
      simp only [List.mem_singleton] at hc
      exact Or.inl hc
    · rw [hn]

theorem color_loop_calls (T : Nat) : ∀ (fuel i : Nat) (s : Driver) (r : Nat × Driver),
    color_loop T fuel i s = some r →
      ∃ new : List Call, r.2.trace = new ++ s.trace ∧
        (∀ c ∈ new, ∃ j col, c = Call.hexagon_set_color j col) ∧
        r.2.g_next_color_animation = s.g_next_color_animation ∧
        r.2.animations_created = s.animations_created := by
  intro fuel
  induction fuel with
  | zero => intro i s r h; simp [color_loop] at h
  | succ f ih =>
    intro i s r h
    rw [color_loop] at h
    split_ifs at h with hlt
    · obtain ⟨new, h1, h2, h3, h4⟩ := ih _ _ _ h
      by_cases h18 : i < NB_HEXAGONS
      · refine ⟨new ++ [Call.hexagon_set_color i (next_color s.color_index)], ?_, ?_, ?_, ?_⟩
        · rw [h1]; simp [color_hexagon, h18]
        · intro c hc
          rcases List.mem_append.mp hc with hc | hc
          · exact h2 c hc
          · exact ⟨_, _, List.mem_singleton.mp hc⟩
        · rw [h3]; simp [color_hexagon, h18]
        · rw [h4]; simp [color_hexagon, h18]
      · refine ⟨new, ?_, h2, ?_, ?_⟩
        · rw [h1]; simp [color_hexagon, h18]
        · rw [h3]; simp [color_hexagon, h18]
        · rw [h4]; simp [color_hexagon, h18]
    · cases h
      exact ⟨[], rfl, by simp, rfl, rfl⟩

theorem update_calls (s s1 : Driver) (t : Nat) (h : next_color_update_animation s t = some s1) :
    ∃ new : List Call, s1.trace = new ++ s.trace ∧
      (∀ c ∈ new, ∃ j col, c = Call.hexagon_set_color j col) ∧
      s1.g_next_color_animation = s.g_next_color_animation ∧
      s1.animations_created = s.animations_created := by
  unfold next_color_update_animation at h
  split at h
  · cases h
  · rename_i i s2 hloop
    have hf := color_loop_calls _ _ _ _ _ hloop
    simp only [Option.some.injEq] at h
    subst h
    split_ifs
    · exact hf
    · exact hf

/-- Calls that neither destroy an animation nor schedule a colour sweep keep the handle
bookkeeping intact. -/
theorem handles_ok_extend (s s1 : Driver) (new : List Call)
    (htr : s1.trace = new ++ s.trace)
    (hheld : s1.g_next_color_animation = s.g_next_color_animation)
    (hn : s.animations_created ≤ s1.animations_created)
    (hnew : ∀ c ∈ new, (∀ a, c ≠ Call.animation_destroy a) ∧
      (∀ a, c ≠ Call.animation_schedule a 1500))
    (h : handles_ok s) : handles_ok s1 := by
  obtain ⟨h1, h2, h3⟩ := h
  refine ⟨?_, ?_, ?_⟩
  · intro a ha
    rw [htr] at ha
    rcases List.mem_append.mp ha with hm | hm
    · exact absurd rfl ((hnew _ hm).1 a)
    · exact Nat.lt_of_lt_of_le (h1 a hm) hn
  · intro a ha
    rw [hheld]
    apply h2 a
    unfold sweep_live at ha ⊢
    rw [htr] at ha
    constructor
    · rcases List.mem_append.mp ha.1 with hm | hm
      · exact absurd rfl ((hnew _ hm).2 a)
      · exact hm
    · intro hd
      exact ha.2 (List.mem_append.mpr (Or.inr hd))
  · intro a ha
    rw [hheld] at ha
    exact Nat.lt_of_lt_of_le (h3 a ha) hn

theorem handles_ok_display_next_color (s : Driver) (h : handles_ok s) :
    handles_ok (display_next_color s) ∧
    sweep_live (display_next_color s).trace s.animations_created := by
  obtain ⟨h1, h2, h3⟩ := h
  obtain ⟨htr, hheld, hn, -⟩ := display_next_color_fields s
  have hmem : ∀ a, Call.animation_destroy a ∈ (display_next_color s).trace →
      s.g_next_color_animation = some a ∨ Call.animation_destroy a ∈ s.trace := by
    intro a ha
    rw [htr] at ha
    cases hb : s.g_next_color_animation with
    | none => rw [hb] at ha; simp at ha; exact Or.inr ha
    | some b =>
      rw [hb] at ha
      simp at ha
      rcases ha with ha | ha
      · left; rw [ha]
      · exact Or.inr ha
  have hsub : ∀ c ∈ s.trace, c ∈ (display_next_color s).trace := by
    intro c hc
    rw [htr]
    simp [hc]
  have hheld_destroyed : ∀ b, s.g_next_color_animation = some b →
      Call.animation_destroy b ∈ (display_next_color s).trace := by
    intro b hb
    rw [htr, hb]
    simp
  have hfresh : Call.animation_destroy s.animations_created ∉ (display_next_color s).trace := by
    intro hd
    rcases hmem _ hd with hb | hb
    · exact Nat.lt_irrefl _ (h3 _ hb)
    · exact Nat.lt_irrefl _ (h1 _ hb)
  refine ⟨⟨?_, ?_, ?_⟩, ?_, hfresh⟩
  · intro a ha
    rw [hn]
    rcases hmem a ha with hb | hb
    · exact Nat.lt_succ_of_lt (h3 a hb)
    · exact Nat.lt_succ_of_lt (h1 a hb)
  · intro a ha
    rw [hheld]
    obtain ⟨hs, hd⟩ := ha
    rw [htr] at hs
    simp only [List.mem_cons, Call.animation_schedule.injEq, and_true] at hs
    rcases hs with hs | hs | hs
    · rw [hs]
    · cases hs
    · have hsold : Call.animation_schedule a 1500 ∈ s.trace := by
        rcases List.mem_append.mp hs with hm | hm
        · cases hb : s.g_next_color_animation with
          | none => rw [hb] at hm; simp at hm
          | some b => rw [hb] at hm; simp at hm
        · simpa using hm
      have hold := h2 a ⟨hsold, fun hd2 => hd (hsub _ hd2)⟩
      exact absurd (hheld_destroyed a hold) hd
  · intro a ha
    rw [hheld] at ha
    cases ha
    rw [hn]
    exact Nat.lt_succ_self _
  · rw [htr]; simp

theorem handles_ok_update_time (s : Driver) (clk : HostClock) (h : handles_ok s) :
    handles_ok (update_time s clk) := by
  have hu := update_time_fields s clk
  apply handles_ok_extend s _ [Call.update_time] (by rw [hu.1]; rfl) hu.2.1
    (by rw [hu.2.2.1]) _ h
  intro c hc
  simp only [List.mem_singleton] at hc
  subst hc
  exact ⟨fun a => by simp, fun a => by simp⟩

theorem step_handles_ok (s s1 : Driver) (e : Event) (hs : step s e = some s1)
    (h : handles_ok s) : handles_ok s1 := by
  cases e with
  | tick u clk =>
    simp only [step, Option.some.injEq] at hs; subst hs
    unfold tick_handler
    simp only []
    split_ifs
    · exact (handles_ok_display_next_color _ (handles_ok_update_time s clk h)).1
    · exact handles_ok_update_time s clk h
  | sweep_started =>
    simp only [step, Option.some.injEq] at hs; subst hs
    exact h
  | sweep_update t =>
    simp only [step] at hs
    obtain ⟨new, htr, hnew, hheld, hn⟩ := update_calls s s1 t hs
    apply handles_ok_extend s s1 new htr hheld (by rw [hn]) _ h
    intro c hc
    obtain ⟨j, col, hj⟩ := hnew c hc
    subst hj
    exact ⟨fun a => by simp, fun a => by simp⟩
  | sweep_stopped f clk =>
    simp only [step, Option.some.injEq] at hs; subst hs
    obtain ⟨new, htr, hnew, hheld, hn, -⟩ := stopped_fields s f clk
    apply handles_ok_extend s _ new htr hheld hn _ h
    intro c hc
    rcases hnew c hc with hc | hc | ⟨a, hc⟩ | ⟨a, hc⟩ <;> subst hc <;>
      exact ⟨fun a => by simp, fun a => by simp⟩
  | legend_started =>
    simp only [step, Option.some.injEq] at hs; subst hs
    simpa only [handles_ok, legend_animation_started] using h
  | legend_update t =>
    simp only [step, Option.some.injEq] at hs; subst hs
    exact h
  | legend_stopped f =>
    simp only [step, Option.some.injEq] at hs; subst hs
    simpa only [handles_ok, legend_animation_stopped] using h

theorem run_handles_ok : ∀ (evs : List Event) (s s1 : Driver), run s evs = some s1 →
    handles_ok s → handles_ok s1 := by
  intro evs
  induction evs with
  | nil =>
    intro s s1 h hs
    simp only [run, Option.some.injEq] at h; subst h
    exact hs
  | cons e es ih =>
    intro s s1 h hs
    obtain ⟨s2, h1, h2⟩ := run_cons s e es s1 h
    exact ih s2 s1 h2 (step_handles_ok s s2 e h1 hs)

theorem load_handles_ok (rand : Nat) (clk : HostClock) :
    handles_ok (main_window_load boot rand clk) := by
  unfold main_window_load
  simp only []
  apply (handles_ok_display_next_color _ _).1
  apply handles_ok_update_time
  refine ⟨?_, ?_, ?_⟩
  · intro a ha; simp [boot] at ha
  · intro a ha; simp [sweep_live, boot] at ha
  · intro a ha; simp [boot] at ha

/-- In every state reached from `main_window_load` the handle bookkeeping holds. -/
theorem reachable_handles_ok (rand : Nat) (clk : HostClock) (evs : List Event) (s : Driver)
    (h : run (main_window_load boot rand clk) evs = some s) : handles_ok s :=
  run_handles_ok evs _ s h (load_handles_ok rand clk)

theorem update_time_hexs (s : Driver) (clk : HostClock) :
    (∀ p ∈ time_labels clk, (update_time s clk).hexs[p.1]? =
      (s.hexs[p.1]?).map (fun h => hexagon_set_text h p.2)) ∧
    (∀ j, (∀ p ∈ time_labels clk, j ≠ p.1) → (update_time s clk).hexs[j]? = s.hexs[j]?) := by
  constructor
  · intro p hp
    simp only [time_labels, List.mem_cons, List.mem_singleton, List.mem_nil_iff, or_false] at hp
    rcases hp with h | h | h | h | h | h <;> subst h <;>
      simp [update_time, modifyNth_getElem?, HEX_MONTH, HEX_DAYNUM, HEX_WEEK, HEX_YEAR, HEX_DAY,
        HEX_BATT]
  · intro j hj
    have h0 := hj (HEX_MONTH, clk.month) (by simp [time_labels])
    have h1 := hj (HEX_DAYNUM, clk.daynum) (by simp [time_labels])
    have h2 := hj (HEX_WEEK, clk.weeknum) (by simp [time_labels])
    have h3 := hj (HEX_YEAR, clk.year) (by simp [time_labels])
    have h4 := hj (HEX_DAY, clk.day) (by simp [time_labels])
    have h5 := hj (HEX_BATT, battery_text clk) (by simp [time_labels])
    simp only [] at h0 h1 h2 h3 h4 h5
    simp [update_time, modifyNth_getElem?, h0, h1, h2, h3, h4, h5]

theorem has_label_modifyNth (f : t_hexagon → t_hexagon)
    (hf : ∀ h, (f h).text.isSome = h.text.isSome) (hexs : List t_hexagon) (j i : Nat) :
    has_label (modifyNth f hexs j) i = has_label hexs i := by
  unfold has_label
  rw [modifyNth_getElem?]
  by_cases hij : i = j
  · rw [if_pos hij]
    cases hexs[i]? with
    | none => rfl
    | some h => simpa using hf h
  · rw [if_neg hij]

theorem has_label_foldl (f : t_hexagon → t_hexagon)
    (hf : ∀ h, (f h).text.isSome = h.text.isSome) (i : Nat) :
    ∀ (l : List Nat) (hexs : List t_hexagon),
      has_label (l.foldl (fun hx j => modifyNth f hx j) hexs) i = has_label hexs i := by
  intro l
  induction l with
  | nil => intro hexs; rfl
  | cons a l ih =>
    intro hexs
    rw [List.foldl_cons, ih, has_label_modifyNth f hf]

theorem set_text_keeps_label (t : String) (h : t_hexagon) :
    (hexagon_set_text h t).text.isSome = h.text.isSome := by
  unfold hexagon_set_text
  cases ht : h.text <;> simp [ht]

theorem set_color_keeps_label (c : GColor) (h : t_hexagon) :
    (hexagon_set_color h c).text.isSome = h.text.isSome := rfl

theorem show_legend_keeps_label (h : t_hexagon) :
    (hexagon_show_legend h).text.isSome = h.text.isSome := by
  unfold hexagon_show_legend
  cases hl : h.legend <;> simp [hl]

theorem hide_legend_keeps_label (h : t_hexagon) :
    (hexagon_hide_legend h).text.isSome = h.text.isSome := by
  unfold hexagon_hide_legend
  cases hl : h.legend <;> simp [hl]

theorem update_time_has_label (s : Driver) (clk : HostClock) (i : Nat) :
    has_label (update_time s clk).hexs i = has_label s.hexs i := by
  have hk := fun t => has_label_modifyNth (fun h => hexagon_set_text h t)
    (set_text_keeps_label t)
  simp only [update_time, hk]

theorem color_loop_has_label (T i0 : Nat) : ∀ (fuel i : Nat) (s : Driver) (r : Nat × Driver),
    color_loop T fuel i s = some r → has_label r.2.hexs i0 = has_label s.hexs i0 := by
  intro fuel
  induction fuel with
  | zero => intro i s r h; simp [color_loop] at h
  | succ f ih =>
    intro i s r h
    rw [color_loop] at h
    split_ifs at h with hlt
    · rw [ih _ _ _ h]
      unfold color_hexagon
      split_ifs
      · exact has_label_modifyNth _ (set_color_keeps_label _) _ _ _
      · rfl
    · cases h
      rfl

theorem stopped_hexs (s : Driver) (f : Bool) (clk : HostClock) :
    (next_color_animation_stopped s f clk).hexs = (update_time s clk).hexs := by
  unfold next_color_animation_stopped
  simp only []
  split_ifs <;> simp [display_legend, record, animation_create_and_schedule, update_time]

theorem step_has_label (s s1 : Driver) (e : Event) (hs : step s e = some s1) (i : Nat) :
    has_label s1.hexs i = has_label s.hexs i := by
  cases e with
  | tick u clk =>
    simp only [step, Option.some.injEq] at hs; subst hs
    rw [(tick_fields s u clk).2.2.1, update_time_has_label]
  | sweep_started =>
    simp only [step, Option.some.injEq] at hs; subst hs
    rfl
  | sweep_update t =>
    simp only [step] at hs
    unfold next_color_update_animation at hs
    split at hs
    · cases hs
    · rename_i k s2 hloop
      have hf := color_loop_has_label _ i _ _ _ _ hloop
      simp only [Option.some.injEq] at hs
      subst hs
      split_ifs
      · exact hf
      · exact hf
  | sweep_stopped f clk =>
    simp only [step, Option.some.injEq] at hs; subst hs
    rw [stopped_hexs, update_time_has_label]
  | legend_started =>
    simp only [step, Option.some.injEq] at hs; subst hs
    simp only [legend_animation_started]
    exact has_label_foldl _ show_legend_keeps_label i _ _
  | legend_update t =>
    simp only [step, Option.some.injEq] at hs; subst hs
    rfl
  | legend_stopped f =>
    simp only [step, Option.some.injEq] at hs; subst hs
    simp only [legend_animation_stopped]
    exact has_label_foldl _ hide_legend_keeps_label i _ _

theorem run_has_label (i : Nat) : ∀ (evs : List Event) (s s1 : Driver),
    run s evs = some s1 → has_label s1.hexs i = has_label s.hexs i := by
  intro evs
  induction evs with
  | nil =>
    intro s s1 h
    simp only [run, Option.some.injEq] at h; subst h
    rfl
  | cons e es ih =>
    intro s s1 h
    obtain ⟨s2, h1, h2⟩ := run_cons s e es s1 h
    rw [ih s2 s1 h2, step_has_label s s2 e h1]

theorem load_has_label (rand : Nat) (clk : HostClock) :
    ∀ p ∈ time_labels clk, has_label (main_window_load boot rand clk).hexs p.1 = true := by
  intro p hp
  unfold main_window_load
  simp only []
  rw [(display_next_color_fields _).2.2.2.2.2, update_time_has_label]
  simp only [time_labels, List.mem_cons, List.mem_singleton, List.mem_nil_iff, or_false] at hp
  rcases hp with h | h | h | h | h | h <;> subst h <;> dsimp only <;> decide

/-- In every state reached from `main_window_load` the six time-derived tiles exist and have
a label attached. -/
theorem reachable_has_label (rand : Nat) (clk0 : HostClock) (evs : List Event) (s : Driver)
    (h : run (main_window_load boot rand clk0) evs = some s) (clk : HostClock) :
    ∀ p ∈ time_labels clk, has_label s.hexs p.1 = true := by
  intro p hp
  rw [run_has_label p.1 evs _ s h]
  have hidx : ∃ q ∈ time_labels clk0, q.1 = p.1 := by
    simp only [time_labels, List.mem_cons, List.mem_singleton, List.mem_nil_iff, or_false] at hp
    rcases hp with h | h | h | h | h | h <;> subst h <;> simp [time_labels]
  obtain ⟨q, hq, hqp⟩ := hidx
  rw [← hqp]
  exact load_has_label rand clk0 q hq

/-- Reading a label back after `update_time`: a time-derived tile that has a label shows the
host's string, and nothing else of the tile changes. -/
theorem update_time_label (s : Driver) (clk : HostClock) :
    ∀ p ∈ time_labels clk,
      (∀ h l, s.hexs[p.1]? = some h → h.text = some l →
        (update_time s clk).hexs[p.1]? = some { h with text := some { l with text := p.2 } }) ∧
      (has_label s.hexs p.1 = true → label_text (update_time s clk).hexs p.1 = some p.2) := by
  intro p hp
  have hm := (update_time_hexs s clk).1 p hp
  constructor
  · intro h l hh hl
    rw [hm, hh]
    simp [hexagon_set_text, hl, text_layer_set_text]
  · intro hlab
    unfold has_label at hlab
    unfold label_text
    rw [hm]
    cases hh : s.hexs[p.1]? with
    | none => rw [hh] at hlab; simp at hlab
    | some h =>
      rw [hh] at hlab
      cases hl : h.text with
      | none => simp [hl] at hlab
      | some l => simp [hexagon_set_text, hl]

/-- C11: for every `units_changed`, `tick_handler` rewrites the six time-derived labels
(month, day number, week, year, day, battery) and no other tile; it schedules a colour-sweep
animation exactly when `units_changed` contains `MINUTE_UNIT`: without it the trace gains
only the `update_time` call, with it the handle held so far (if any) is destroyed, then one
new animation is created and scheduled and becomes the handle held.  In every state reached
from `main_window_load`, after the tick a live colour-sweep animation is the one held (so at
most one is live), and after a minute tick the new one is live.  Read back: a time-derived
tile that has a label shows the host's string after the tick and is otherwise as before; in
every state reached from `main_window_load` all six labels show the host's strings. -/
theorem C11_tick_handler (s : Driver) (units_changed : Nat) (clk : HostClock) :
    (∀ p ∈ time_labels clk, (tick_handler s units_changed clk).hexs[p.1]? =
      (s.hexs[p.1]?).map (fun h => hexagon_set_text h p.2)) ∧
    (∀ j, (∀ p ∈ time_labels clk, j ≠ p.1) →
      (tick_handler s units_changed clk).hexs[j]? = s.hexs[j]?) ∧
    (units_changed &&& MINUTE_UNIT = 0 →
      (tick_handler s units_changed clk).trace = Call.update_time :: s.trace ∧
      (tick_handler s units_changed clk).g_next_color_animation = s.g_next_color_animation ∧
      (tick_handler s units_changed clk).animations_created = s.animations_created) ∧
    (units_changed &&& MINUTE_UNIT ≠ 0 →
      (tick_handler s units_changed clk).trace
        = minute_tick_calls s.g_next_color_animation s.animations_created ++ s.trace ∧
      (tick_handler s units_changed clk).g_next_color_animation = some s.animations_created ∧
      (tick_handler s units_changed clk).animations_created = s.animations_created + 1) ∧
    (∀ (rand : Nat) (clk0 : HostClock) (evs : List Event),
      run (main_window_load boot rand clk0) evs = some s →
      (∀ a, sweep_live (tick_handler s units_changed clk).trace a →
        (tick_handler s units_changed clk).g_next_color_animation = some a) ∧
      (units_changed &&& MINUTE_UNIT ≠ 0 →
        sweep_live (tick_handler s units_changed clk).trace s.animations_created)) ∧
    (∀ p ∈ time_labels clk,
      (∀ h l, s.hexs[p.1]? = some h → h.text = some l →
        (tick_handler s units_changed clk).hexs[p.1]?
          = some { h with text := some { l with text := p.2 } }) ∧
      (has_label s.hexs p.1 = true →
        label_text (tick_handler s units_changed clk).hexs p.1 = some p.2)) ∧
    (∀ (rand : Nat) (clk0 : HostClock) (evs : List Event),
      run (main_window_load boot rand clk0) evs = some s →
      label_text (tick_handler s units_changed clk).hexs HEX_MONTH = some clk.month ∧
      label_text (tick_handler s units_changed clk).hexs HEX_DAY = some clk.day ∧
      label_text (tick_handler s units_changed clk).hexs HEX_DAYNUM = some clk.daynum ∧
      label_text (tick_handler s units_changed clk).hexs HEX_WEEK = some clk.weeknum ∧
      label_text (tick_handler s units_changed clk).hexs HEX_YEAR = some clk.year ∧
      label_text (tick_handler s units_changed clk).hexs HEX_BATT
        = some (if clk.is_charging then "--" else (toString clk.charge_percent).take 3)) := by
  have hf := tick_fields s units_changed clk
  have hh := update_time_hexs s clk
  have hl := update_time_label s clk
  refine ⟨?_, ?_, hf.1, hf.2.1, ?_, ?_, ?_⟩
  · intro p hp; rw [hf.2.2.1]; exact hh.1 p hp
  · intro j hj; rw [hf.2.2.1]; exact hh.2 j hj
  · intro rand clk0 evs hrun
    have hok := reachable_handles_ok rand clk0 evs s hrun
    have hok1 : handles_ok (tick_handler s units_changed clk) :=
      step_handles_ok s _ (Event.tick units_changed clk) rfl hok
    refine ⟨hok1.2.1, ?_⟩
    intro hm
    have hd := handles_ok_display_next_color _ (handles_ok_update_time s clk hok)
    have hn := (update_time_fields s clk).2.2.1
    rw [hn] at hd
    unfold tick_handler
    simp only []
    rw [if_pos hm]
    exact hd.2
  · intro p hp
    rw [hf.2.2.1]
    exact hl p hp
  · intro rand clk0 evs hrun
    have hlab := reachable_has_label rand clk0 evs s hrun clk
    have key : ∀ p ∈ time_labels clk,
        label_text (tick_handler s units_changed clk).hexs p.1 = some p.2 := by
      intro p hp
      rw [hf.2.2.1]
      exact (hl p hp).2 (hlab p hp)
    exact ⟨key (HEX_MONTH, clk.month) (by simp [time_labels]),
      key (HEX_DAY, clk.day) (by simp [time_labels]),
      key (HEX_DAYNUM, clk.daynum) (by simp [time_labels]),
      key (HEX_WEEK, clk.weeknum) (by simp [time_labels]),
      key (HEX_YEAR, clk.year) (by simp [time_labels]),
      key (HEX_BATT, battery_text clk) (by simp [time_labels])⟩

/-- Witness for C11: a minute tick on the loaded window destroys handle `0` and schedules
handle `1`, and with the later host reading the month label then reads `Nov` and the
battery label `--`. -/
theorem C11_tick_handler_witness :
    (tick_handler loaded 2 sample_clock).trace
      = minute_tick_calls (some 0) 1 ++ loaded.trace ∧
    sweep_live (tick_handler loaded 2 sample_clock).trace loaded.animations_created ∧
    label_text (tick_handler loaded 2 later_clock).hexs HEX_MONTH = some "Nov" ∧
    label_text (tick_handler loaded 2 later_clock).hexs HEX_BATT = some "--" ∧
    label_text loaded.hexs HEX_MONTH = some "Oct" :=
  ⟨((C11_tick_handler loaded 2 sample_clock).2.2.2.1 (by decide)).1,
   ((C11_tick_handler loaded 2 sample_clock).2.2.2.2.1 0 sample_clock [] rfl).2 (by decide),
   ((C11_tick_handler loaded 2 later_clock).2.2.2.2.2.2 0 sample_clock [] rfl).1,
   ((C11_tick_handler loaded 2 later_clock).2.2.2.2.2.2 0 sample_clock [] rfl).2.2.2.2.2,
   by decide⟩

theorem mem_sweep_calls (col : GColor) (lo n : Nat) (c : Call) (h : c ∈ sweep_calls col lo n) :
    ∃ k, k < n ∧ c = Call.hexagon_set_color (lo + k) col := by
  induction n with
  | zero => simp [sweep_calls] at h
  | succ n ih =>
    rw [sweep_calls] at h
    rcases List.mem_cons.mp h with h | h
    · exact ⟨n, Nat.lt_succ_self n, h⟩
    · obtain ⟨k, hk, hc⟩ := ih h
      exact ⟨k, Nat.lt_succ_of_lt hk, hc⟩

theorem next_color_palette (c : Int) (h0 : 0 ≤ c) (h5 : c ≤ 5) :
    next_color c ∈ palette ∧ next_color c ≠ GColor.Black := by
  obtain ⟨k, hk⟩ : ∃ k : Nat, c = (k : Int) := ⟨c.toNat, by omega⟩
  subst hk
  have hk5 : k ≤ 5 := by omega
  interval_cases k <;> decide

/-- Calls other than `hexagon_set_color`, with `color_index` and the cursor kept, keep the
ranges. -/
theorem state_ranges_extend (s s1 : Driver) (new : List Call)
    (htr : s1.trace = new ++ s.trace) (hci : s1.color_index = s.color_index)
    (hcur : s1.g_current_hex = s.g_current_hex)
    (hnew : ∀ c ∈ new, ∀ i col, c ≠ Call.hexagon_set_color i col)
    (h : state_ranges s) : state_ranges s1 := by
  obtain ⟨h1, h2, h3⟩ := h
  refine ⟨by rw [hci]; exact h1, by rw [hcur]; exact h2, ?_⟩
  intro i col hm
  rw [htr] at hm
  rcases List.mem_append.mp hm with hm | hm
  · exact absurd rfl (hnew _ hm i col)
  · exact h3 i col hm

theorem minute_tick_calls_no_set_color (held : Option Nat) (n : Nat) :
    ∀ c ∈ minute_tick_calls held n, ∀ i col, c ≠ Call.hexagon_set_color i col := by
  intro c hc i col
  unfold minute_tick_calls at hc
  cases held with
  | none =>
    simp at hc
    rcases hc with h | h | h | h <;> subst h <;> simp
  | some b =>
    simp at hc
    rcases hc with h | h | h | h | h <;> subst h <;> simp

theorem step_state_ranges (s s1 : Driver) (e : Event) (hc : in_contract e)
    (hs : step s e = some s1) (h : state_ranges s) : state_ranges s1 := by
  cases e with
  | tick u clk =>
    simp only [step, Option.some.injEq] at hs; subst hs
    have hf := tick_fields s u clk
    by_cases hm : u &&& MINUTE_UNIT ≠ 0
    · exact state_ranges_extend s _ _ (hf.2.1 hm).1 hf.2.2.2.2 hf.2.2.2.1
        (minute_tick_calls_no_set_color _ _) h
    · have hz : u &&& MINUTE_UNIT = 0 := by
        by_contra hne; exact hm hne
      apply state_ranges_extend s _ [Call.update_time] (hf.1 hz).1 hf.2.2.2.2 hf.2.2.2.1 _ h
      intro c hc i col
      simp only [List.mem_singleton] at hc
      subst hc; simp
  | sweep_started =>
    simp only [step, Option.some.injEq] at hs; subst hs
    obtain ⟨h1, -, h3⟩ := h
    exact ⟨h1, by simp [next_color_animation_started], h3⟩
  | sweep_update t =>
    simp only [step] at hs
    have ht : t ≤ 65535 := hc
    obtain ⟨s2, hrun, hframe, htrace, -, hcur1, hcur2⟩ := update_spec s t ht
    rw [hs] at hrun
    simp only [Option.some.injEq] at hrun
    subst hrun
    have hT := target_le t ht
    obtain ⟨h1, h2, h3⟩ := h
    obtain ⟨c, hcdef⟩ : ∃ c : Nat, s.g_current_hex = (c : Int) :=
      ⟨s.g_current_hex.toNat, by omega⟩
    have hc18 : c ≤ 18 := by omega
    rw [hcdef, toU16_natCast c hc18] at htrace hcur1 hcur2
    generalize hTdef : t / (ANIMATION_NORMALIZED_MAX / NB_HEXAGONS) = T at *
    refine ⟨?_, ?_, ?_⟩
    · rw [hframe]; exact h1
    · by_cases hlt : c < T
      · rw [hcur1 hlt]; omega
      · rw [hcur2 hlt (by omega) (by omega)]; omega
    · intro i col hm
      rw [htrace] at hm
      rcases List.mem_append.mp hm with hm | hm
      · obtain ⟨k, hk, hcall⟩ := mem_sweep_calls _ _ _ _ hm
        simp only [Call.hexagon_set_color.injEq] at hcall
        obtain ⟨hi, hcol⟩ := hcall
        subst hi hcol
        refine ⟨(next_color_palette _ h1.1 h1.2).1, ?_⟩
        unfold NB_HEXAGONS
        omega
      · exact h3 i col hm
  | sweep_stopped f clk =>
    simp only [step, Option.some.injEq] at hs; subst hs
    obtain ⟨new, htr, hnew, -, -, hcur⟩ := stopped_fields s f clk
    have hci := stopped_color_index s f clk
    obtain ⟨h1, -, h3⟩ := h
    rw [wrap16_eq _ (by omega) (by omega)] at hci
    refine ⟨?_, by rw [hcur]; omega, ?_⟩
    · rw [hci]; split_ifs <;> omega
    · intro i col hm
      rw [htr] at hm
      rcases List.mem_append.mp hm with hm | hm
      · rcases hnew _ hm with hx | hx | ⟨a, hx⟩ | ⟨a, hx⟩ <;> cases hx
      · exact h3 i col hm
  | legend_started =>
    simp only [step, Option.some.injEq] at hs; subst hs
    simpa only [state_ranges, legend_animation_started] using h
  | legend_update t =>
    simp only [step, Option.some.injEq] at hs; subst hs
    exact h
  | legend_stopped f =>
    simp only [step, Option.some.injEq] at hs; subst hs
    simpa only [state_ranges, legend_animation_stopped] using h

theorem run_state_ranges : ∀ (evs : List Event) (s : Driver), (∀ e ∈ evs, in_contract e) →
    state_ranges s → ∃ s1, run s evs = some s1 ∧ state_ranges s1 := by
  intro evs
  induction evs with
  | nil => intro s _ h; exact ⟨s, rfl, h⟩
  | cons e es ih =>
    intro s hc h
    obtain ⟨s2, h2⟩ := step_total s e (hc e (List.mem_cons_self _ _))
    obtain ⟨s1, h1, hr⟩ := ih s2 (fun x hx => hc x (List.mem_cons_of_mem _ hx))
      (step_state_ranges s s2 e (hc e (List.mem_cons_self _ _)) h2 h)
    exact ⟨s1, by simp only [run, h2, Option.bind_some]; exact h1, hr⟩

theorem load_state_ranges (rand : Nat) (clk : HostClock) :
    state_ranges (main_window_load boot rand clk) := by
  unfold main_window_load
  simp only []
  have hd := display_next_color_fields
  have hu := update_time_fields
  refine ⟨?_, ?_, ?_⟩
  · rw [(hd _).2.2.2.2.1, (hu _ _).2.2.2.2.1]
    show 0 ≤ wrap16 ((rand % 6 : Nat) : Int) ∧ wrap16 ((rand % 6 : Nat) : Int) ≤ 5
    rw [wrap16_eq _ (by omega) (by omega)]
    omega
  · rw [(hd _).2.2.2.1, (hu _ _).2.2.2.1]
    show (0 : Int) ≤ boot.g_current_hex ∧ boot.g_current_hex ≤ 18
    simp [boot]
  · intro i col hm
    rw [(hd _).1, (hu _ _).2.1, (hu _ _).1] at hm
    simp [boot] at hm

/-- C12: in every state reached from `main_window_load` (with `color_index = rand() % 6`,
cursor 0) by events within the host's contract, the run returns, `color_index` is in `0..5`
and the cursor in `0..18`; start and stop reset the cursor to 0; `next_color()` is one of the
six palette colours and never the Black fall-through, and every colour that was passed to
`hexagon_set_color` is a palette colour. -/
theorem C12_state_ranges (rand : Nat) (clk : HostClock) (evs : List Event)
    (hev : ∀ e ∈ evs, in_contract e) :
    ∃ s, run (main_window_load boot rand clk) evs = some s ∧
      (0 ≤ s.color_index ∧ s.color_index ≤ 5) ∧
      (0 ≤ s.g_current_hex ∧ s.g_current_hex ≤ 18) ∧
      (next_color_animation_started s).g_current_hex = 0 ∧
      (∀ (finished : Bool) (c : HostClock),
        (next_color_animation_stopped s finished c).g_current_hex = 0) ∧
      next_color s.color_index ∈ palette ∧
      next_color s.color_index ≠ GColor.Black ∧
      (∀ i col, Call.hexagon_set_color i col ∈ s.trace → col ∈ palette ∧ i < NB_HEXAGONS) ∧
      palette = [GColor.Green, GColor.Orange, GColor.Cyan, GColor.ShockingPink, GColor.Yellow,
        GColor.Red] := by
  obtain ⟨s, hrun, h1, h2, h3⟩ := run_state_ranges evs _ hev (load_state_ranges rand clk)
  have hp := next_color_palette s.color_index h1.1 h1.2
  refine ⟨s, hrun, h1, h2, rfl, ?_, hp.1, hp.2, h3, rfl⟩
  intro f c
  obtain ⟨-, -, -, -, -, hcur⟩ := stopped_fields s f c
  exact hcur

/-- Witness for C12: the theorem applied to the sample event sequence on the loaded window. -/
theorem C12_state_ranges_witness :
    ∃ s, run loaded sample_events = some s ∧
      (0 ≤ s.color_index ∧ s.color_index ≤ 5) ∧ (0 ≤ s.g_current_hex ∧ s.g_current_hex ≤ 18) := by
  obtain ⟨s, h1, h2, h3, -⟩ := C12_state_ranges 0 sample_clock sample_events (by
    intro e he
    simp only [sample_events, List.mem_cons, List.mem_singleton, List.mem_nil_iff, or_false] at he
    rcases he with h | h | h | h | h | h | h | h | h | h | h | h | h | h <;> subst h <;>
      simp [in_contract, ANIMATION_NORMALIZED_MAX])
  exact ⟨s, h1, h2, h3⟩

end Hexagons
